import Mathlib

/-!
Shallow embedding of the swoole inter-process MessageBus
(`src/unnamed/part_000`, the body of `swoole::MessageBus`).

Modelling conventions, kept uniform through the file:

* Machine integers are `Nat` (unsigned) or `Int` (signed return values).
  `ssize_t` results (`read`, `readv`, `write` paths) are `Int`, with
  `SW_OK = 0` and `SW_ERR = -1` as in the source.
* Byte payloads are `List Nat`.  The bus copies bytes around with
  `memcpy`/`readv` and never inspects them, so the byte range is irrelevant.
* The chunk buffer's inline data region `buffer_->data` can hold either raw
  payload bytes, a `PacketPtr` value stored by `pass`, or a `String *`
  stored by `prepare_packet`.  It is modelled as the inductive `BufData`;
  the pointer stored by `prepare_packet` is identified by the `msg_id` of
  the pool entry it points to (the pool never erases or re-keys entries,
  so this identification is exact).
* The socket facade (an external collaborator of the bus, spec section 4.7)
  is modelled as a queue of framed records plus a one-shot injected read
  error that fires on the next consuming read (not on `MSG_PEEK`, which is
  served from already-buffered data).  A consuming read that stops short of
  a record boundary leaves the unread payload bytes behind as a `stray`
  item; decoding stray bytes as a fresh header is unspecified behaviour
  and is modelled by an all-zero header (no theorem below depends on it).
* The write side's `send_fn` (event writev / sync writev) is modelled by a
  schedule: one entry per call, `none` for a full successful write,
  `some e` for a failed write whose errno the facade classifies as `e`.
* The id generator is injected in the source; `write` takes the generated
  `msg_id` as an explicit argument.
* The allocator is modelled by a single success flag on the bus.
-/

namespace swoole

/-! ## Flags and constants -/

def SW_EVENT_DATA_PTR : Nat := 2
def SW_EVENT_DATA_CHUNK : Nat := 4
def SW_EVENT_DATA_BEGIN : Nat := 8
def SW_EVENT_DATA_END : Nat := 16
def SW_EVENT_DATA_OBJ_PTR : Nat := 32

/-- Design-fixed size of the framing header (spec section 3: 40 bytes). -/
def sizeofDataHead : Nat := 40

/-- Size of the `PacketPtr` value `pass` stores inline (size_t + pointer). -/
def sizeofPacketPtr : Nat := 16

/-- Modelled from the spec: `SW_WORKER_MAX_RECV_CHUNK_COUNT` is defined in a
header that is not under `src/`; the spec (sections 6 and 8) gives the
default 1024 for the fair-share limit. -/
def SW_WORKER_MAX_RECV_CHUNK_COUNT : Nat := 1024

/-- Modelled from the spec: `SW_IPC_BUFFER_SIZE`, the hard floor for the
writer's chunk-size downshift, is defined in a header that is not under
`src/`; the spec (scenario S5) gives 8 KiB. -/
def SW_IPC_BUFFER_SIZE : Nat := 8192

def SW_OK : Int := 0
def SW_ERR : Int := -1

/-- Clear a single flag bit of a `uint8_t` flags value
(`flags &= ~bit` in the source; `bit` is a power of two below 256). -/
def flagClear (flags bit : Nat) : Nat := flags &&& (255 - bit)

/-! ## Data model -/

/-- The framing header.  `server_fd`, `ext_flags` and `time` are carried
opaquely by the bus (copied, never read) and are omitted. -/
structure DataHead where
  fd : Int
  msg_id : Nat
  len : Nat
  reactor_id : Int
  type : Nat
  flags : Nat
  deriving DecidableEq, Repr

def DataHead.is_chunked (h : DataHead) : Bool := h.flags &&& SW_EVENT_DATA_CHUNK != 0

def DataHead.is_begin (h : DataHead) : Bool := h.flags &&& SW_EVENT_DATA_BEGIN != 0

def DataHead.is_end (h : DataHead) : Bool := h.flags &&& SW_EVENT_DATA_END != 0

/-- The reassembly buffer (`swoole::String`).  `str` is the owned byte
storage (`none` models a null `str` pointer, as left behind by
`move_packet`); `length` is the used length field; `size` the capacity
(alignment of the allocation is not modelled). -/
structure String where
  str : Option (List Nat)
  length : Nat
  size : Nat
  deriving DecidableEq, Repr

/-- Modelled from the spec: `make_string` lives in a header that is not
under `src/`.  Per the spec (sections 4.2 and 7) allocation goes through
the injected allocator, no exception control flow is used, and an
allocation failure is reported to the caller of the pool operation; a
failed `make_string` is therefore a null result. -/
def make_string (n : Nat) (alloc_ok : Bool) : Option String :=
  if alloc_ok then some ⟨some [], 0, n⟩ else none

/-- Contents of the chunk buffer's inline data region `buffer_->data`. -/
inductive BufData where
  /-- raw payload bytes written by a socket read -/
  | raw (bs : List Nat)
  /-- a `PacketPtr` value stored by `pass` (length, external data pointer) -/
  | ptrPacket (length : Nat) (addr : Nat)
  /-- a `String *` stored by `prepare_packet`, identified by the pool key -/
  | ptrObj (id : Nat)
  deriving DecidableEq, Repr

/-- What a delivered `PacketPtr.data` pointer refers to: bytes owned by the
receiver (inline region or reassembly buffer), or an external caller-owned
address (zero-copy hand-off / null pointer as address 0). -/
inductive PktData where
  | mem (bs : List Nat)
  | ext (addr : Nat)
  deriving DecidableEq, Repr

structure PacketPtr where
  length : Nat
  data : PktData
  deriving DecidableEq, Repr

/-- A caller-side payload: the address the caller owns plus its bytes. -/
structure Payload where
  addr : Nat
  bytes : List Nat
  deriving DecidableEq, Repr

structure SendData where
  info : DataHead
  data : Option Payload
  deriving DecidableEq, Repr

/-- One `[DataHead | payload-slice]` record on the wire. -/
structure MBRecord where
  info : DataHead
  payload : List Nat
  deriving DecidableEq, Repr

/-- The reassembly pool: `msg_id -> shared_ptr<String>` (the shared pointer
may be null, hence `Option String`).  An association list with unique keys
models the `std::unordered_map`. -/
def lookupPool : List (Nat × Option String) → Nat → Option (Option String)
  | [], _ => none
  | (k, v) :: rest, id => if k = id then some v else lookupPool rest id

def updatePool : List (Nat × Option String) → Nat → Option String → List (Nat × Option String)
  | [], _, _ => []
  | (k, v) :: rest, id, nv =>
    if k = id then (k, nv) :: rest else (k, v) :: updatePool rest id nv

/-- The bus state: current chunk buffer (header + interpreted inline data),
reassembly pool, configuration, and the allocator success flag. -/
structure MessageBus where
  buffer_info : DataHead
  buffer_data : BufData
  packet_pool_ : List (Nat × Option String)
  buffer_size_ : Nat
  always_chunked_transfer_ : Bool
  alloc_ok : Bool
  deriving DecidableEq, Repr

/-! ## Diagnostics -/

/-- Log events emitted by the reader: `warning` stands for a
`swoole_warning` call, `abnormal id` for the
`swoole_error_log(SW_LOG_WARNING, SW_ERROR_SERVER_WORKER_ABNORMAL_PIPE_DATA, ...)`
call with that `msg_id`. -/
inductive LogEvent where
  | warning
  | abnormal (msg_id : Nat)
  deriving DecidableEq, Repr

/-! ## Socket model (stream and datagram) -/

/-- An item buffered on a socket: a whole framed record, or stray payload
bytes left behind when a consuming read stopped after the header. -/
inductive SockItem where
  | item (info : DataHead) (payload : List Nat)
  | stray (bs : List Nat)
  deriving DecidableEq, Repr

/-- Socket state: buffered items, a one-shot injected error for the next
consuming read (`true` = fatal class, `false` = would-block class), and
whether the peer has closed (EOF once the buffer drains). -/
structure RSock where
  q : List SockItem
  rverr : Option Bool
  closed : Bool
  deriving DecidableEq, Repr

/-- Header produced by decoding stray payload bytes as a `DataHead`:
unspecified; modelled as all zeroes.  No verified scenario reaches it. -/
def strayHead : DataHead := ⟨0, 0, 0, 0, 0, 0⟩

inductive PeekRes where
  | data (h : DataHead)
  | closedP
  | waitP
  deriving DecidableEq, Repr

/-- `recv(fd, info, sizeof(DataHead), MSG_PEEK)`: served from buffered
data, consumes nothing. -/
def sock_peek (s : RSock) : PeekRes :=
  match s.q with
  | [] => if s.closed then .closedP else .waitP
  | .item h _ :: _ => .data h
  | .stray _ :: _ => .data strayHead

inductive ReadvOut where
  | dataR (chunk : List Nat)
  | zeroR
  | waitR
  | fatalR
  deriving DecidableEq, Repr

/-- `readv(fd, [header(40), tail(k)], 2)`: reads the head record's header
plus up to `k` of its payload bytes (a short read stops at the record
boundary, which the facade contract allows). -/
def sock_readv (s : RSock) (k : Nat) : ReadvOut × RSock :=
  match s.rverr with
  | some c => (if c then .fatalR else .waitR, { s with rverr := none })
  | none =>
    match s.q with
    | [] => if s.closed then (.zeroR, s) else (.waitR, s)
    | .item _ p :: rest =>
      if p.length ≤ k then (.dataR p, { s with q := rest })
      else (.dataR (p.take k), { s with q := .stray (p.drop k) :: rest })
    | .stray _ :: rest => (.dataR [], { s with q := rest })

/-- `sock->read(buffer_, sizeof(DataHead) + buffer_->info.len)` in the
non-chunked branch: fills the chunk buffer with the head record, returning
the byte count (a short read stops at the record boundary). -/
def sock_read_full (bus : MessageBus) (s : RSock) : Int × MessageBus × RSock :=
  match s.rverr with
  | some _ => (-1, bus, { s with rverr := none })
  | none =>
    match s.q with
    | [] => if s.closed then (0, bus, s) else (-1, bus, s)
    | .item h p :: rest =>
      let t := min bus.buffer_info.len p.length
      let q2 := if p.length ≤ t then rest else .stray (p.drop t) :: rest
      (((sizeofDataHead + t : Nat) : Int),
        { bus with buffer_info := h, buffer_data := .raw (p.take t) },
        { s with q := q2 })
    | .stray bs :: rest =>
      (((min (sizeofDataHead + bus.buffer_info.len) bs.length : Nat) : Int), bus,
        { s with q := rest })

/-- `recv(fd, info, sizeof(DataHead), 0)` in the anomaly branch: consumes
exactly the header bytes from the stream (the return value is discarded by
the source). -/
def sock_discard_head (s : RSock) : RSock :=
  match s.rverr with
  | some _ => { s with rverr := none }
  | none =>
    match s.q with
    | [] => s
    | .item _ p :: rest => { s with q := if p.isEmpty then rest else .stray p :: rest }
    | .stray bs :: rest =>
      { s with q := if bs.length ≤ sizeofDataHead then rest else .stray (bs.drop sizeofDataHead) :: rest }

inductive DgramOut where
  | dataD (h : DataHead) (p : List Nat)
  | zeroD
  | waitD
  | fatalD
  deriving DecidableEq, Repr

/-- `sock->read(buffer_, buffer_size_)` on a datagram socket: one whole
datagram per call (truncated to the capacity). -/
def sock_read_dgram (s : RSock) (cap : Nat) : DgramOut × RSock :=
  match s.rverr with
  | some c => (if c then .fatalD else .waitD, { s with rverr := none })
  | none =>
    match s.q with
    | [] => if s.closed then (.zeroD, s) else (.waitD, s)
    | .item h p :: rest => (.dataD h (p.take (cap - sizeofDataHead)), { s with q := rest })
    | .stray _ :: rest => (.dataD strayHead [], { s with q := rest })

/-! ## MessageBus operations (from `src/unnamed/part_000`) -/

/-- `MessageBus::get_packet` (part_000 lines 11-26). -/
def MessageBus.get_packet (bus : MessageBus) : PacketPtr :=
  if bus.buffer_info.flags &&& SW_EVENT_DATA_PTR != 0 then
    match bus.buffer_data with
    | .ptrPacket l a => ⟨l, .ext a⟩
    | _ => ⟨0, .ext 0⟩
  else if bus.buffer_info.flags &&& SW_EVENT_DATA_OBJ_PTR != 0 then
    match bus.buffer_data with
    | .ptrObj id =>
      match lookupPool bus.packet_pool_ id with
      | some (some s) =>
        ⟨s.length, match s.str with | some bs => .mem bs | none => .ext 0⟩
      | _ => ⟨0, .ext 0⟩
    | _ => ⟨0, .ext 0⟩
  else
    ⟨bus.buffer_info.len,
      .mem (match bus.buffer_data with | .raw bs => bs | _ => [])⟩

/-- `MessageBus::pass` (part_000 lines 39-47). -/
def MessageBus.pass (bus : MessageBus) (task : SendData) : MessageBus :=
  let bus1 := { bus with buffer_info := task.info }
  if task.info.len > 0 then
    { bus1 with
      buffer_info := { bus1.buffer_info with flags := SW_EVENT_DATA_PTR, len := sizeofPacketPtr },
      buffer_data := .ptrPacket task.info.len ((task.data.map Payload.addr).getD 0) }
  else bus1

/-- `MessageBus::move_packet` (part_000 lines 49-60): detaches the byte
storage from the pool entry for the current `msg_id` and returns it.  The
source dereferences a null shared pointer if the entry holds one; that
undefined behaviour is modelled as returning null. -/
def MessageBus.move_packet (bus : MessageBus) : Option (List Nat) × MessageBus :=
  let msg_id := bus.buffer_info.msg_id
  match lookupPool bus.packet_pool_ msg_id with
  | some (some s) =>
    (s.str, { bus with packet_pool_ := updatePool bus.packet_pool_ msg_id (some { s with str := none }) })
  | some none => (none, bus)
  | none => (none, bus)

/-- `MessageBus::get_packet_buffer` (part_000 lines 62-77).  Note the
source inserts the `make_string` result into the pool unconditionally. -/
def MessageBus.get_packet_buffer (bus : MessageBus) : Option String × MessageBus :=
  match lookupPool bus.packet_pool_ bus.buffer_info.msg_id with
  | none =>
    if !bus.buffer_info.is_begin then (none, bus)
    else
      let packet_buffer := make_string bus.buffer_info.len bus.alloc_ok
      (packet_buffer,
        { bus with packet_pool_ := bus.packet_pool_ ++ [(bus.buffer_info.msg_id, packet_buffer)] })
  | some packet_buffer => (packet_buffer, bus)

inductive ReturnCode where
  | SW_CONTINUE
  | SW_READY
  | SW_WAIT
  deriving DecidableEq, Repr

/-- `MessageBus::prepare_packet` (part_000 lines 79-109).  The
`recv_chunk_count` reference parameter becomes an explicit in/out value;
the `String *packet_buffer` the source memcpy's into the chunk buffer is
the pool entry for the current `msg_id` at every call site, so the stored
pointer is modelled as `BufData.ptrObj msg_id`. -/
def MessageBus.prepare_packet (bus : MessageBus) (recv_chunk_count : Nat) :
    ReturnCode × Nat × MessageBus :=
  let c := recv_chunk_count + 1
  if !bus.buffer_info.is_end then
    if SW_WORKER_MAX_RECV_CHUNK_COUNT ≤ c then (.SW_WAIT, c, bus)
    else (.SW_CONTINUE, c, bus)
  else
    (.SW_READY, c,
      { bus with
        buffer_info := { bus.buffer_info with flags := bus.buffer_info.flags ||| SW_EVENT_DATA_OBJ_PTR },
        buffer_data := .ptrObj bus.buffer_info.msg_id })

/-- The append performed after a successful chunk `readv` (part_000 line
166) and by `String::append` in `read_with_buffer` (line 218): grow the
pool entry's storage and bump its length field. -/
def MessageBus.pool_append (bus : MessageBus) (id : Nat) (chunk : List Nat) : MessageBus :=
  match lookupPool bus.packet_pool_ id with
  | some (some s) =>
    { bus with
      packet_pool_ := updatePool bus.packet_pool_ id
        (some { s with str := some (s.str.getD [] ++ chunk), length := s.length + chunk.length }) }
  | _ => bus

/-- `MessageBus::read` (part_000 lines 116-181), the goto loop unrolled
into fuel-indexed recursion; `none` means the fuel ran out (the wrapper
`mb_read` always supplies enough).  Result: the source's `ssize_t` (-1
fatal, 0 continue/re-arm, >0 success), the bus, the socket, the log. -/
def mb_read_loop (bus : MessageBus) (s : RSock) (recv_chunk_count : Nat)
    (logs : List LogEvent) : Nat → Option (Int × MessageBus × RSock × List LogEvent)
  | 0 => none
  | fuel + 1 =>
    match sock_peek s with
    | .waitP => some (SW_OK, bus, s, logs)
    | .closedP => some (SW_ERR, bus, s, logs ++ [.warning])
    | .data h =>
      let bus1 := { bus with buffer_info := h }
      if !h.is_chunked then
        let r := sock_read_full bus1 s
        some (r.1, r.2.1, r.2.2, logs)
      else
        match bus1.get_packet_buffer with
        | (none, bus2) =>
          some (SW_OK, bus2, sock_discard_head s, logs ++ [.abnormal h.msg_id])
        | (some pb, bus2) =>
          let remain := h.len - pb.length
          let k := min (bus2.buffer_size_ - sizeofDataHead) remain
          match sock_readv s k with
          | (.zeroR, s2) => some (SW_ERR, bus2, s2, logs ++ [.warning])
          | (.waitR, s2) => some (SW_OK, bus2, s2, logs)
          | (.fatalR, s2) =>
            match bus2.prepare_packet recv_chunk_count with
            | (.SW_READY, _, bus3) => some (SW_ERR, bus3, s2, logs)
            | (.SW_CONTINUE, c, bus3) => mb_read_loop bus3 s2 c logs fuel
            | (.SW_WAIT, _, bus3) => some (SW_OK, bus3, s2, logs)
          | (.dataR chunk, s2) =>
            let bus3 := bus2.pool_append h.msg_id chunk
            match bus3.prepare_packet recv_chunk_count with
            | (.SW_READY, _, bus4) =>
              some (((sizeofDataHead + chunk.length : Nat) : Int), bus4, s2, logs)
            | (.SW_CONTINUE, c, bus4) => mb_read_loop bus4 s2 c logs fuel
            | (.SW_WAIT, _, bus4) => some (SW_OK, bus4, s2, logs)

def itemSize : SockItem → Nat
  | .item _ p => 1 + p.length
  | .stray bs => bs.length

/-- Fuel that upper-bounds the iterations of either read loop: every
iteration that recurses removes at least one byte-or-header from the queue
or consumes the one-shot injected error. -/
def RSock.measureFuel (s : RSock) : Nat :=
  (s.q.map itemSize).sum + (if s.rverr.isSome then 1 else 0) + 1

/-- `MessageBus::read` entry point. -/
def mb_read (bus : MessageBus) (s : RSock) :
    Option (Int × MessageBus × RSock × List LogEvent) :=
  mb_read_loop bus s 0 [] s.measureFuel

/-- `MessageBus::read_with_buffer` (part_000 lines 186-231), datagram
mode, goto loop unrolled as above. -/
def mb_read_with_buffer_loop (bus : MessageBus) (s : RSock) (recv_chunk_count : Nat)
    (logs : List LogEvent) : Nat → Option (Int × MessageBus × RSock × List LogEvent)
  | 0 => none
  | fuel + 1 =>
    match sock_read_dgram s bus.buffer_size_ with
    | (.waitD, s2) => some (SW_OK, bus, s2, logs)
    | (.fatalD, s2) => some (SW_ERR, bus, s2, logs)
    | (.zeroD, s2) => some (SW_ERR, bus, s2, logs ++ [.warning])
    | (.dataD h p, s2) =>
      let bus1 := { bus with buffer_info := h, buffer_data := .raw p }
      let c1 := recv_chunk_count + 1
      if !h.is_chunked then some (((sizeofDataHead + p.length : Nat) : Int), bus1, s2, logs)
      else
        match bus1.get_packet_buffer with
        | (none, bus2) => some (SW_ERR, bus2, s2, logs ++ [.abnormal h.msg_id])
        | (some _, bus2) =>
          let bus3 := bus2.pool_append h.msg_id p
          match bus3.prepare_packet c1 with
          | (.SW_READY, _, bus4) =>
            some (((sizeofDataHead + p.length : Nat) : Int), bus4, s2, logs)
          | (.SW_CONTINUE, c2, bus4) => mb_read_with_buffer_loop bus4 s2 c2 logs fuel
          | (.SW_WAIT, _, bus4) => some (SW_OK, bus4, s2, logs)

/-- `MessageBus::read_with_buffer` entry point. -/
def mb_read_with_buffer (bus : MessageBus) (s : RSock) :
    Option (Int × MessageBus × RSock × List LogEvent) :=
  mb_read_with_buffer_loop bus s 0 [] s.measureFuel

/-! ## Writer -/

/-- Classification of a failed write by `Socket::catch_write_pipe_error`. -/
inductive WErr where
  | reduceSize
  | fatal
  deriving DecidableEq, Repr

/-- Outcome of one `send_fn` call under the write schedule: pops the next
entry; an exhausted schedule means success. -/
def sendOutcome : List (Option WErr) → Option WErr × List (Option WErr)
  | [] => (none, [])
  | o :: t => (o, t)

/-- The `while (l_payload > 0)` chunk loop of `MessageBus::write`
(part_000 lines 282-314).  `info0` carries the header with `msg_id` and
the total `len` already set; `flags` is the mutable `resp->info.flags`.
`none` means the fuel ran out (the source loop does not terminate when
`buffer_size_ <= sizeof(DataHead)`; callers below always supply enough
fuel).  Returns the source's `bool` plus the records sent so far. -/
def write_chunk_loop (payload : List Nat) (info0 : DataHead) (flags : Nat) (l_payload : Nat)
    (offset : Nat) (max_length : Nat) (sched : List (Option WErr)) (acc : List MBRecord) :
    Nat → Option (Bool × List MBRecord)
  | 0 => none
  | fuel + 1 =>
    if l_payload = 0 then some (true, acc)
    else
      let flags1 := if l_payload > max_length then flags else flags ||| SW_EVENT_DATA_END
      let copy_n := if l_payload > max_length then max_length else l_payload
      let info := { info0 with flags := flags1 }
      let slice := (payload.drop offset).take copy_n
      match sendOutcome sched with
      | (some e, sched2) =>
        if e = WErr.reduceSize ∧ max_length > SW_IPC_BUFFER_SIZE then
          write_chunk_loop payload info0
            (if flags1 &&& SW_EVENT_DATA_END != 0 then flagClear flags1 SW_EVENT_DATA_END else flags1)
            l_payload offset SW_IPC_BUFFER_SIZE sched2 acc fuel
        else some (false, acc)
      | (none, sched2) =>
        write_chunk_loop payload info0
          (if flags1 &&& SW_EVENT_DATA_BEGIN != 0 then flagClear flags1 SW_EVENT_DATA_BEGIN else flags1)
          (l_payload - copy_n) (offset + copy_n) max_length sched2 (acc ++ [⟨info, slice⟩]) fuel

/-- `MessageBus::write` (part_000 lines 233-317).  `msg_id` is the value
produced by the injected `id_generator_()`; `sched` drives `send_fn`. -/
def mb_write (bus : MessageBus) (resp : SendData) (msg_id : Nat)
    (sched : List (Option WErr)) (fuel : Nat) : Option (Bool × List MBRecord) :=
  let l_payload := resp.info.len
  let max_length := bus.buffer_size_ - sizeofDataHead
  let base := { resp.info with msg_id := msg_id }
  let pbytes := (resp.data.map Payload.bytes).getD []
  if l_payload = 0 ∨ resp.data = none then
    let info := { base with flags := 0, len := 0 }
    match sendOutcome sched with
    | (none, _) => some (true, [⟨info, []⟩])
    | (some _, _) => some (false, [])
  else
    if bus.always_chunked_transfer_ = false ∧ l_payload ≤ max_length then
      let info := { base with flags := 0, len := l_payload }
      match sendOutcome sched with
      | (none, _) => some (true, [⟨info, pbytes.take l_payload⟩])
      | (some e, sched2) =>
        if e = WErr.reduceSize ∧ max_length > SW_IPC_BUFFER_SIZE then
          write_chunk_loop pbytes { base with len := l_payload }
            (SW_EVENT_DATA_CHUNK ||| SW_EVENT_DATA_BEGIN) l_payload 0
            SW_IPC_BUFFER_SIZE sched2 [] fuel
        else some (false, [])
    else
      write_chunk_loop pbytes { base with len := l_payload }
        (SW_EVENT_DATA_CHUNK ||| SW_EVENT_DATA_BEGIN) l_payload 0
        max_length sched [] fuel

/-! ## Harness helpers used by the theorems -/

/-- A records list as the stream-socket item queue it arrives as. -/
def toItems (recs : List MBRecord) : List SockItem :=
  recs.map (fun r => .item r.info r.payload)

/-- A fresh bus with the given capacity and chunked-transfer setting, a
working allocator, and an empty pool. -/
def mkBus (cap : Nat) (ac : Bool) : MessageBus :=
  ⟨⟨0, 0, 0, 0, 0, 0⟩, .raw [], [], cap, ac, true⟩

/-- The caller-side delivery loop of claim C1: invoke `read` repeatedly
while it reports 0 (re-arm), stopping at the first READY (>0) or fatal
(-1) result. -/
def read_until_ready (bus : MessageBus) (s : RSock) :
    Nat → Option (Int × MessageBus × RSock × List LogEvent)
  | 0 => none
  | fuel + 1 =>
    match mb_read bus s with
    | none => none
    | some (r, bus2, s2, lg) =>
      if r = SW_OK then read_until_ready bus2 s2 fuel
      else some (r, bus2, s2, lg)

/-- Number of queue items one `read` invocation consumed (0 if the fuel
bound were ever hit). -/
def readConsumed (bus : MessageBus) (s : RSock) : Nat :=
  match mb_read bus s with
  | some (_, _, s2, _) => s.q.length - s2.q.length
  | none => 0

/-- Number of datagrams one `read_with_buffer` invocation consumed. -/
def readBufConsumed (bus : MessageBus) (s : RSock) : Nat :=
  match mb_read_with_buffer bus s with
  | some (_, _, s2, _) => s.q.length - s2.q.length
  | none => 0

/-- Just the `ssize_t` result of a `read` invocation. -/
def readResult (bus : MessageBus) (s : RSock) : Option Int :=
  (mb_read bus s).map (fun x => x.1)

/-- Just the `ssize_t` result of a `read_with_buffer` invocation. -/
def readBufResult (bus : MessageBus) (s : RSock) : Option Int :=
  (mb_read_with_buffer bus s).map (fun x => x.1)

/-- Flags of a chunk record: CHUNK, plus BEGIN on the first of a series. -/
def cbFlags (first : Bool) : Nat :=
  SW_EVENT_DATA_CHUNK ||| (if first then SW_EVENT_DATA_BEGIN else 0)

/-- Ghost description of the record series the chunk loop emits when every
write succeeds: slices of `d + 1` bytes, BEGIN on the first record of the
series, END on the last. -/
def wchunks (info0 : DataHead) (d : Nat) (bs : List Nat) (first : Bool) : List MBRecord :=
  if h : bs.length ≤ d + 1 then
    [⟨{ info0 with flags := cbFlags first ||| SW_EVENT_DATA_END }, bs⟩]
  else
    ⟨{ info0 with flags := cbFlags first }, bs.take (d + 1)⟩ ::
      wchunks info0 d (bs.drop (d + 1)) false
termination_by bs.length
decreasing_by simp only [List.length_drop]; omega


/-- Over-limit chunk-series scenario for claim C5: payload split into
`SW_WORKER_MAX_RECV_CHUNK_COUNT + 1 + n` one-byte chunks. -/
def c5len (n : Nat) : Nat := SW_WORKER_MAX_RECV_CHUNK_COUNT + 1 + n

def c5info (n : Nat) : DataHead := ⟨0, 77, c5len n, 0, 0, 0⟩

def c5P (n : Nat) : List Nat := List.replicate (c5len n) 0

def c5sock (n : Nat) : RSock := ⟨toItems (wchunks (c5info n) 0 (c5P n) true), none, false⟩

def c5rest (n : Nat) : RSock :=
  ⟨toItems (wchunks (c5info n) 0 (List.replicate (n + 1) 0) false), none, false⟩

end swoole

namespace swoole

lemma write_chunk_loop_noerr (info0 : DataHead) (d : Nat) (payload : List Nat) :
    ∀ fuel (bs : List Nat) (first : Bool) (offset : Nat) (acc : List MBRecord),
      payload.drop offset = bs → bs ≠ [] → bs.length + 1 ≤ fuel →
      write_chunk_loop payload info0 (cbFlags first) bs.length offset (d + 1) [] acc fuel
        = some (true, acc ++ wchunks info0 d bs first) := by
  intro fuel
  induction fuel with
  | zero =>
    intro bs first offset acc hdrop hne hf
    have : bs.length ≠ 0 := by simpa using List.length_pos.mpr hne |>.ne'
    omega
  | succ fuel ih =>
    intro bs first offset acc hdrop hne hf
    have hlen : 0 < bs.length := List.length_pos.mpr hne
    by_cases hle : bs.length ≤ d + 1
    · have hgt : ¬ bs.length > d + 1 := by omega
      obtain ⟨g, rfl⟩ : ∃ g, fuel = g + 1 := ⟨fuel - 1, by omega⟩
      rw [wchunks, dif_pos hle]
      simp only [write_chunk_loop, sendOutcome, if_neg hlen.ne', if_neg hgt, hdrop,
        List.take_length, Nat.sub_self]
      simp
    · have hgt : bs.length > d + 1 := by omega
      have hdrop2 : payload.drop (offset + (d + 1)) = bs.drop (d + 1) := by
        rw [← hdrop, List.drop_drop]
      have hne2 : bs.drop (d + 1) ≠ [] := by
        intro hx
        have := congrArg List.length hx
        simp only [List.length_drop, List.length_nil] at this
        omega
      have hf2 : (bs.drop (d + 1)).length + 1 ≤ fuel := by
        simp only [List.length_drop]; omega
      have key := ih (bs.drop (d + 1)) false (offset + (d + 1))
        (acc ++ [⟨{ info0 with flags := cbFlags first }, bs.take (d + 1)⟩]) hdrop2 hne2 hf2
      have hclear : (if cbFlags first &&& SW_EVENT_DATA_BEGIN != 0 then
          flagClear (cbFlags first) SW_EVENT_DATA_BEGIN else cbFlags first) = cbFlags false := by
        cases first <;> simp [DataHead.is_chunked, DataHead.is_begin, DataHead.is_end, cbFlags, SW_EVENT_DATA_CHUNK, SW_EVENT_DATA_BEGIN, SW_EVENT_DATA_END] <;> decide
      have hlensub : bs.length - (d + 1) = (bs.drop (d + 1)).length := by
        simp [List.length_drop]
      conv_rhs => rw [wchunks]
      rw [dif_neg hle]
      simp only [write_chunk_loop, sendOutcome, if_neg hlen.ne', if_pos hgt, hdrop]
      rw [hclear, hlensub, key]
      simp

end swoole

namespace swoole

lemma wchunks_ne_nil (info0 : DataHead) (d : Nat) (bs : List Nat) (first : Bool) :
    wchunks info0 d bs first ≠ [] := by
  rw [wchunks]
  split <;> simp

lemma wchunks_join (info0 : DataHead) (d : Nat) :
    ∀ (bs : List Nat) (first : Bool),
      ((wchunks info0 d bs first).map MBRecord.payload).flatten = bs := by
  intro bs first
  induction bs, first using wchunks.induct info0 d with
  | case1 bs first h =>
    rw [wchunks, dif_pos h]
    simp
  | case2 bs first h ih =>
    rw [wchunks, dif_neg h]
    simp [ih]

end swoole

namespace swoole

lemma getLast_cons_ne {α : Type} (x : α) (l : List α) (h : l ≠ []) :
    (x :: l).getLast? = l.getLast? := by
  cases l with
  | nil => exact absurd rfl h
  | cons y t => exact List.getLast?_cons_cons

lemma wchunks_info (info0 : DataHead) (d : Nat) :
    ∀ (bs : List Nat) (first : Bool), ∀ r ∈ wchunks info0 d bs first,
      r.info.msg_id = info0.msg_id ∧ r.info.len = info0.len ∧ r.info.fd = info0.fd ∧
      r.info.reactor_id = info0.reactor_id ∧ r.info.type = info0.type ∧
      r.info.is_chunked = true := by
  intro bs first
  induction bs, first using wchunks.induct info0 d with
  | case1 bs first h =>
    intro r hr
    rw [wchunks, dif_pos h] at hr
    simp at hr
    subst hr
    refine ⟨rfl, rfl, rfl, rfl, rfl, ?_⟩
    cases first <;> simp [DataHead.is_chunked, DataHead.is_begin, DataHead.is_end, cbFlags, SW_EVENT_DATA_CHUNK, SW_EVENT_DATA_BEGIN, SW_EVENT_DATA_END] <;> decide
  | case2 bs first h ih =>
    intro r hr
    rw [wchunks, dif_neg h] at hr
    rcases List.mem_cons.mp hr with hr | hr
    · subst hr
      refine ⟨rfl, rfl, rfl, rfl, rfl, ?_⟩
      cases first <;> simp [DataHead.is_chunked, DataHead.is_begin, DataHead.is_end, cbFlags, SW_EVENT_DATA_CHUNK, SW_EVENT_DATA_BEGIN, SW_EVENT_DATA_END] <;> decide
    · exact ih r hr

lemma wchunks_mem_flags (info0 : DataHead) (d : Nat) :
    ∀ (bs : List Nat) (first : Bool), ∀ r ∈ wchunks info0 d bs first,
      r.info.flags = cbFlags first ∨ r.info.flags = cbFlags first ||| SW_EVENT_DATA_END ∨
      r.info.flags = cbFlags false ∨ r.info.flags = cbFlags false ||| SW_EVENT_DATA_END := by
  intro bs first
  induction bs, first using wchunks.induct info0 d with
  | case1 bs first h =>
    intro r hr
    rw [wchunks, dif_pos h] at hr
    simp at hr
    subst hr
    right; left; rfl
  | case2 bs first h ih =>
    intro r hr
    rw [wchunks, dif_neg h] at hr
    rcases List.mem_cons.mp hr with hr | hr
    · subst hr
      left; rfl
    · rcases ih r hr with h1 | h1 | h1 | h1 <;> simp [h1]

lemma wchunks_no_begin (info0 : DataHead) (d : Nat) (bs : List Nat) :
    ∀ r ∈ wchunks info0 d bs false, r.info.is_begin = false := by
  intro r hr
  rcases wchunks_mem_flags info0 d bs false r hr with h1 | h1 | h1 | h1 <;>
    simp only [DataHead.is_begin, h1] <;> decide

lemma wchunks_tail_no_begin (info0 : DataHead) (d : Nat) (bs : List Nat) (first : Bool) :
    ∀ r ∈ (wchunks info0 d bs first).tail, r.info.is_begin = false := by
  rw [wchunks]
  split
  · simp
  · intro r hr
    simp only [List.tail_cons] at hr
    exact wchunks_no_begin info0 d _ r hr

lemma wchunks_head_begin (info0 : DataHead) (d : Nat) (bs : List Nat) (first : Bool) :
    ∀ r, (wchunks info0 d bs first).head? = some r → r.info.is_begin = first := by
  rw [wchunks]
  split <;>
  · intro r hr
    simp only [List.head?_cons, Option.some.injEq] at hr
    subst hr
    cases first <;> simp [DataHead.is_chunked, DataHead.is_begin, DataHead.is_end, cbFlags, SW_EVENT_DATA_CHUNK, SW_EVENT_DATA_BEGIN, SW_EVENT_DATA_END] <;> decide

lemma wchunks_getLast_end (info0 : DataHead) (d : Nat) :
    ∀ (bs : List Nat) (first : Bool), ∀ r, (wchunks info0 d bs first).getLast? = some r →
      r.info.is_end = true := by
  intro bs first
  induction bs, first using wchunks.induct info0 d with
  | case1 bs first h =>
    intro r hr
    rw [wchunks, dif_pos h] at hr
    simp only [List.getLast?_singleton, Option.some.injEq] at hr
    subst hr
    cases first <;> simp [DataHead.is_chunked, DataHead.is_begin, DataHead.is_end, cbFlags, SW_EVENT_DATA_CHUNK, SW_EVENT_DATA_BEGIN, SW_EVENT_DATA_END] <;> decide
  | case2 bs first h ih =>
    intro r hr
    rw [wchunks, dif_neg h] at hr
    rw [getLast_cons_ne _ _ (wchunks_ne_nil info0 d _ false)] at hr
    exact ih r hr

lemma wchunks_dropLast_no_end (info0 : DataHead) (d : Nat) :
    ∀ (bs : List Nat) (first : Bool), ∀ r ∈ (wchunks info0 d bs first).dropLast,
      r.info.is_end = false := by
  intro bs first
  induction bs, first using wchunks.induct info0 d with
  | case1 bs first h =>
    intro r hr
    rw [wchunks, dif_pos h] at hr
    simp at hr
  | case2 bs first h ih =>
    intro r hr
    rw [wchunks, dif_neg h] at hr
    rw [List.dropLast_cons_of_ne_nil (wchunks_ne_nil info0 d _ false)] at hr
    rcases List.mem_cons.mp hr with hr | hr
    · subst hr
      cases first <;> simp [DataHead.is_chunked, DataHead.is_begin, DataHead.is_end, cbFlags, SW_EVENT_DATA_CHUNK, SW_EVENT_DATA_BEGIN, SW_EVENT_DATA_END] <;> decide
    · exact ih r hr

lemma wchunks_length (info0 : DataHead) (d : Nat) :
    ∀ (bs : List Nat) (first : Bool), bs ≠ [] →
      (wchunks info0 d bs first).length = (bs.length + d) / (d + 1) := by
  intro bs first
  induction bs, first using wchunks.induct info0 d with
  | case1 bs first h =>
    intro hne
    have hlen : 0 < bs.length := List.length_pos.mpr hne
    rw [wchunks, dif_pos h]
    have hd : (bs.length + d) / (d + 1) = 1 := by
      refine Nat.div_eq_of_lt_le (by omega) (by omega)
    simp [hd]
  | case2 bs first h ih =>
    intro _
    have hgt : bs.length > d + 1 := by omega
    have hne2 : bs.drop (d + 1) ≠ [] := by
      intro hx
      have := congrArg List.length hx
      simp only [List.length_drop, List.length_nil] at this
      omega
    rw [wchunks, dif_neg h]
    simp only [List.length_cons, ih hne2, List.length_drop]
    have harith : bs.length + d = (bs.length - (d + 1) + d) + (d + 1) := by omega
    rw [harith, Nat.add_div_right _ (Nat.succ_pos d)]

lemma wchunks_head_payload (info0 : DataHead) (d : Nat) (bs : List Nat) (first : Bool) :
    ∀ r, (wchunks info0 d bs first).head? = some r → r.payload = bs.take (d + 1) := by
  rw [wchunks]
  by_cases h : bs.length ≤ d + 1
  · rw [dif_pos h]
    intro r hr
    simp only [List.head?_cons, Option.some.injEq] at hr
    subst hr
    exact (List.take_of_length_le h).symm
  · rw [dif_neg h]
    intro r hr
    simp only [List.head?_cons, Option.some.injEq] at hr
    subst hr
    rfl

end swoole

namespace swoole

lemma mkBus_max (d : Nat) (ac : Bool) : (mkBus (41 + d) ac).buffer_size_ - sizeofDataHead = d + 1 := by
  simp [mkBus, sizeofDataHead]
  omega

lemma mb_write_noerr_chunked (d a msg : Nat) (hd : DataHead) (P : List Nat) (ac : Bool)
    (fuel : Nat) (hne : P ≠ []) (hpath : ac = true ∨ d + 1 < P.length)
    (hf : P.length + 1 ≤ fuel) :
    mb_write (mkBus (41 + d) ac) ⟨{ hd with len := P.length }, some ⟨a, P⟩⟩ msg [] fuel
      = some (true, wchunks { hd with msg_id := msg, len := P.length } d P true) := by
  have hlen : 0 < P.length := List.length_pos.mpr hne
  have hW := write_chunk_loop_noerr { hd with msg_id := msg, len := P.length } d P fuel P true 0 []
    (by simp) hne hf
  simp only [mb_write, mkBus, sizeofDataHead] at *
  have hmax : 41 + d - 40 = d + 1 := by omega
  rw [hmax] at *
  have hcond : ¬ (P.length = 0 ∨ (some (⟨a, P⟩ : Payload) : Option Payload) = none) := by
    simp [hlen.ne']
  rw [if_neg hcond]
  have hcb : (SW_EVENT_DATA_CHUNK ||| SW_EVENT_DATA_BEGIN) = cbFlags true := by decide
  rcases hpath with hac | hbig
  · rw [hac]
    simp only [Bool.true_eq_false, false_and, if_false]
    simpa [hcb] using hW
  · have : ¬ (ac = false ∧ P.length ≤ d + 1) := by
      rintro ⟨-, hx⟩; omega
    rw [if_neg this]
    simpa [hcb] using hW

lemma mb_write_noerr_single (d a msg : Nat) (hd : DataHead) (P : List Nat)
    (fuel : Nat) (hne : P ≠ []) (hfit : P.length ≤ d + 1) :
    mb_write (mkBus (41 + d) false) ⟨{ hd with len := P.length }, some ⟨a, P⟩⟩ msg [] fuel
      = some (true, [⟨{ hd with msg_id := msg, flags := 0, len := P.length }, P⟩]) := by
  have hlen : 0 < P.length := List.length_pos.mpr hne
  simp only [mb_write, mkBus, sizeofDataHead]
  have hmax : 41 + d - 40 = d + 1 := by omega
  rw [hmax]
  have hcond : ¬ (P.length = 0 ∨ (some (⟨a, P⟩ : Payload) : Option Payload) = none) := by
    simp [hlen.ne']
  rw [if_neg hcond]
  have hok : (True ∧ P.length ≤ d + 1) := ⟨trivial, hfit⟩
  rw [if_pos hok]
  simp [sendOutcome, List.take_of_length_le (le_refl P.length)]

lemma mb_write_noerr_empty (cap a msg : Nat) (ac : Bool) (hd : DataHead) (P : List Nat)
    (fuel : Nat) (hlen : hd.len = 0 ∨ P = []) :
    mb_write (mkBus cap ac) ⟨{ hd with len := P.length }, some ⟨a, P⟩⟩ msg [] fuel
      = (if P.length = 0 then some (true, [⟨{ hd with msg_id := msg, flags := 0, len := 0 }, []⟩])
         else mb_write (mkBus cap ac) ⟨{ hd with len := P.length }, some ⟨a, P⟩⟩ msg [] fuel) := by
  by_cases hz : P.length = 0
  · simp only [mb_write, if_pos hz, hz]
    simp [sendOutcome]
  · rw [if_neg hz]

end swoole

namespace swoole

lemma mkflags_is_chunked (info0 : DataHead) (f : Nat) :
    ({ info0 with flags := f } : DataHead).is_chunked = (f &&& SW_EVENT_DATA_CHUNK != 0) := rfl

lemma mkflags_is_begin (info0 : DataHead) (f : Nat) :
    ({ info0 with flags := f } : DataHead).is_begin = (f &&& SW_EVENT_DATA_BEGIN != 0) := rfl

lemma mkflags_is_end (info0 : DataHead) (f : Nat) :
    ({ info0 with flags := f } : DataHead).is_end = (f &&& SW_EVENT_DATA_END != 0) := rfl

lemma read_series_one (d msg total sz : Nat) (ac ak : Bool) (info0 : DataHead)
    (hm : info0.msg_id = msg) (hl : info0.len = total)
    (fuel : Nat) (bs A : List Nat) (c : Nat) (bi : DataHead) (bd : BufData) (logs : List LogEvent)
    (hne : bs ≠ []) (hle : bs.length ≤ d + 1) (htot : A.length + bs.length = total) :
    mb_read_loop ⟨bi, bd, [(msg, some ⟨some A, A.length, sz⟩)], 41 + d, ac, ak⟩
        ⟨toItems (wchunks info0 d bs false), none, false⟩ c logs (fuel + 1)
      = some (((sizeofDataHead + bs.length : Nat) : Int),
          ⟨{ info0 with flags := (cbFlags false ||| SW_EVENT_DATA_END) ||| SW_EVENT_DATA_OBJ_PTR },
            .ptrObj msg,
            [(msg, some ⟨some (A ++ bs), (A ++ bs).length, sz⟩)], 41 + d, ac, ak⟩,
          ⟨[], none, false⟩, logs) := by
  subst hm
  subst hl
  have hlen : 0 < bs.length := List.length_pos.mpr hne
  rw [wchunks, dif_pos hle]
  have hck : ((cbFlags false ||| SW_EVENT_DATA_END) &&& SW_EVENT_DATA_CHUNK != 0) = true := by decide
  have hend : ((cbFlags false ||| SW_EVENT_DATA_END) &&& SW_EVENT_DATA_END != 0) = true := by decide
  simp only [toItems, List.map, mb_read_loop, sock_peek, mkflags_is_chunked, hck, Bool.not_true,
    Bool.false_eq_true, if_false, MessageBus.get_packet_buffer, lookupPool, if_pos,
    eq_self_iff_true, if_true]
  have hk : (41 + d - sizeofDataHead) ⊓ (info0.len - A.length) = bs.length := by
    simp only [sizeofDataHead]
    omega
  rw [hk]
  simp only [sock_readv, le_refl, if_pos, MessageBus.pool_append, lookupPool, eq_self_iff_true,
    if_true, updatePool, MessageBus.prepare_packet, mkflags_is_end, hend, Bool.not_true,
    Bool.false_eq_true, if_false]
  simp [List.length_append]

end swoole

namespace swoole

lemma read_series_step (d msg total sz : Nat) (ac ak : Bool) (info0 : DataHead)
    (hm : info0.msg_id = msg) (hl : info0.len = total)
    (fuel : Nat) (bs A : List Nat) (c : Nat) (bi : DataHead) (bd : BufData) (logs : List LogEvent)
    (hgt : bs.length > d + 1) (htot : A.length + bs.length = total) :
    mb_read_loop ⟨bi, bd, [(msg, some ⟨some A, A.length, sz⟩)], 41 + d, ac, ak⟩
        ⟨toItems (wchunks info0 d bs false), none, false⟩ c logs (fuel + 1)
      = (if SW_WORKER_MAX_RECV_CHUNK_COUNT ≤ c + 1 then
          some (SW_OK,
            ⟨{ info0 with flags := cbFlags false }, bd,
              [(msg, some ⟨some (A ++ bs.take (d + 1)), A.length + (d + 1), sz⟩)], 41 + d, ac, ak⟩,
            ⟨toItems (wchunks info0 d (bs.drop (d + 1)) false), none, false⟩, logs)
        else
          mb_read_loop
            ⟨{ info0 with flags := cbFlags false }, bd,
              [(msg, some ⟨some (A ++ bs.take (d + 1)), A.length + (d + 1), sz⟩)], 41 + d, ac, ak⟩
            ⟨toItems (wchunks info0 d (bs.drop (d + 1)) false), none, false⟩ (c + 1) logs fuel) := by
  subst hm
  subst hl
  have hle : ¬ bs.length ≤ d + 1 := by omega
  rw [wchunks, dif_neg hle]
  have hck : (cbFlags false &&& SW_EVENT_DATA_CHUNK != 0) = true := by decide
  have hend : (cbFlags false &&& SW_EVENT_DATA_END != 0) = false := by decide
  simp only [toItems, List.map, mb_read_loop, sock_peek, mkflags_is_chunked, hck, Bool.not_true,
    Bool.false_eq_true, if_false, MessageBus.get_packet_buffer, lookupPool, if_pos,
    eq_self_iff_true, if_true]
  have hk : (41 + d - sizeofDataHead) ⊓ (info0.len - A.length) = d + 1 := by
    simp only [sizeofDataHead]
    omega
  rw [hk]
  have htk : (bs.take (d + 1)).length ≤ d + 1 := by
    simp [List.length_take]
  simp only [sock_readv, if_pos htk, MessageBus.pool_append, lookupPool, eq_self_iff_true,
    if_true, updatePool, MessageBus.prepare_packet, mkflags_is_end, hend, Bool.not_false,
    if_true, Bool.true_eq_false]
  have htk2 : (bs.take (d + 1)).length = d + 1 := by
    simp [List.length_take]
    omega
  simp only [htk2]
  by_cases hw : SW_WORKER_MAX_RECV_CHUNK_COUNT ≤ c + 1
  · simp only [if_pos hw]
    rfl
  · simp only [if_neg hw]
    rfl

end swoole

namespace swoole

lemma read_series_loop (d msg total sz : Nat) (ac ak : Bool) (info0 : DataHead)
    (hm : info0.msg_id = msg) (hl : info0.len = total) :
    ∀ fuel (bs A : List Nat) (c : Nat) (bi : DataHead) (bd : BufData) (logs : List LogEvent),
      bs ≠ [] → c < SW_WORKER_MAX_RECV_CHUNK_COUNT → A.length + bs.length = total →
      (wchunks info0 d bs false).length + 1 ≤ fuel →
      (if bs.length ≤ (SW_WORKER_MAX_RECV_CHUNK_COUNT - c) * (d + 1) then
        ∃ n : Nat,
          mb_read_loop ⟨bi, bd, [(msg, some ⟨some A, A.length, sz⟩)], 41 + d, ac, ak⟩
              ⟨toItems (wchunks info0 d bs false), none, false⟩ c logs fuel
            = some (((sizeofDataHead + n : Nat) : Int),
                ⟨{ info0 with flags := (cbFlags false ||| SW_EVENT_DATA_END) ||| SW_EVENT_DATA_OBJ_PTR },
                  .ptrObj msg,
                  [(msg, some ⟨some (A ++ bs), (A ++ bs).length, sz⟩)], 41 + d, ac, ak⟩,
                ⟨[], none, false⟩, logs)
      else
        mb_read_loop ⟨bi, bd, [(msg, some ⟨some A, A.length, sz⟩)], 41 + d, ac, ak⟩
            ⟨toItems (wchunks info0 d bs false), none, false⟩ c logs fuel
          = some (SW_OK,
              ⟨{ info0 with flags := cbFlags false }, bd,
                [(msg, some ⟨some (A ++ bs.take ((SW_WORKER_MAX_RECV_CHUNK_COUNT - c) * (d + 1))),
                    (A ++ bs.take ((SW_WORKER_MAX_RECV_CHUNK_COUNT - c) * (d + 1))).length, sz⟩)],
                41 + d, ac, ak⟩,
              ⟨toItems (wchunks info0 d (bs.drop ((SW_WORKER_MAX_RECV_CHUNK_COUNT - c) * (d + 1))) false),
                none, false⟩,
              logs)) := by
  intro fuel
  induction fuel with
  | zero =>
    intro bs A c bi bd logs hne hc htot hf
    omega
  | succ fuel ih =>
    intro bs A c bi bd logs hne hc htot hf
    have hlen : 0 < bs.length := List.length_pos.mpr hne
    by_cases hle : bs.length ≤ d + 1
    · have hcc : bs.length ≤ (SW_WORKER_MAX_RECV_CHUNK_COUNT - c) * (d + 1) := by
        calc bs.length ≤ d + 1 := hle
        _ = 1 * (d + 1) := by omega
        _ ≤ (SW_WORKER_MAX_RECV_CHUNK_COUNT - c) * (d + 1) :=
            Nat.mul_le_mul_right _ (by omega)
      rw [if_pos hcc]
      exact ⟨bs.length, read_series_one d msg total sz ac ak info0 hm hl fuel bs A c bi bd logs
        hne hle htot⟩
    · have hgt : bs.length > d + 1 := by omega
      rw [read_series_step d msg total sz ac ak info0 hm hl fuel bs A c bi bd logs hgt htot]
      have hlentk : (A ++ bs.take (d + 1)).length = A.length + (d + 1) := by
        simp [List.length_take]
        omega
      by_cases hw : SW_WORKER_MAX_RECV_CHUNK_COUNT ≤ c + 1
      · have hmc : SW_WORKER_MAX_RECV_CHUNK_COUNT - c = 1 := by omega
        have hnc : ¬ bs.length ≤ (SW_WORKER_MAX_RECV_CHUNK_COUNT - c) * (d + 1) := by
          rw [hmc]; omega
        rw [if_neg hnc, if_pos hw, hmc]
        simp only [one_mul, hlentk]
      · have hc2 : c + 1 < SW_WORKER_MAX_RECV_CHUNK_COUNT := by omega
        rw [if_neg hw]
        have hne2 : bs.drop (d + 1) ≠ [] := by
          intro hx
          have := congrArg List.length hx
          simp only [List.length_drop, List.length_nil] at this
          omega
        have htot2 : (A ++ bs.take (d + 1)).length + (bs.drop (d + 1)).length = total := by
          rw [hlentk]
          simp only [List.length_drop]
          omega
        have hf2 : (wchunks info0 d (bs.drop (d + 1)) false).length + 1 ≤ fuel := by
          rw [wchunks, dif_neg hle] at hf
          simp only [List.length_cons] at hf
          omega
        have hkey := ih (bs.drop (d + 1)) (A ++ bs.take (d + 1)) (c + 1)
          { info0 with flags := cbFlags false } bd logs hne2 hc2 htot2 hf2
        rw [hlentk] at hkey
        have hmul : (SW_WORKER_MAX_RECV_CHUNK_COUNT - c) * (d + 1)
            = (SW_WORKER_MAX_RECV_CHUNK_COUNT - (c + 1)) * (d + 1) + (d + 1) := by
          have h1 : SW_WORKER_MAX_RECV_CHUNK_COUNT - c
              = (SW_WORKER_MAX_RECV_CHUNK_COUNT - (c + 1)) + 1 := by omega
          rw [h1, Nat.succ_mul]
        by_cases hdone : (bs.drop (d + 1)).length
            ≤ (SW_WORKER_MAX_RECV_CHUNK_COUNT - (c + 1)) * (d + 1)
        · rw [if_pos hdone] at hkey
          have hcond : bs.length ≤ (SW_WORKER_MAX_RECV_CHUNK_COUNT - c) * (d + 1) := by
            rw [hmul]
            simp only [List.length_drop] at hdone
            omega
          rw [if_pos hcond]
          obtain ⟨n, hn⟩ := hkey
          rw [List.append_assoc, List.take_append_drop] at hn
          exact ⟨n, hn⟩
        · rw [if_neg hdone] at hkey
          have hcond : ¬ bs.length ≤ (SW_WORKER_MAX_RECV_CHUNK_COUNT - c) * (d + 1) := by
            rw [hmul]
            simp only [List.length_drop] at hdone
            omega
          rw [if_neg hcond]
          rw [hkey]
          have hmul2 := hmul.trans (Nat.add_comm _ _)
          have htake : (A ++ bs.take (d + 1))
                ++ (bs.drop (d + 1)).take ((SW_WORKER_MAX_RECV_CHUNK_COUNT - (c + 1)) * (d + 1))
              = A ++ bs.take ((SW_WORKER_MAX_RECV_CHUNK_COUNT - c) * (d + 1)) := by
            rw [hmul2, List.append_assoc]
            congr 1
            conv_rhs => rw [List.take_add]
          have hdropq : (bs.drop (d + 1)).drop ((SW_WORKER_MAX_RECV_CHUNK_COUNT - (c + 1)) * (d + 1))
              = bs.drop ((SW_WORKER_MAX_RECV_CHUNK_COUNT - c) * (d + 1)) := by
            rw [List.drop_drop, ← hmul2]
          rw [htake, hdropq]

end swoole

namespace swoole

lemma read_series_step_first (d msg total : Nat) (ac : Bool) (info0 : DataHead)
    (hm : info0.msg_id = msg) (hl : info0.len = total)
    (fuel : Nat) (P : List Nat) (bi : DataHead) (bd : BufData) (logs : List LogEvent)
    (hgt : P.length > d + 1) (htot : P.length = total) :
    mb_read_loop ⟨bi, bd, [], 41 + d, ac, true⟩
        ⟨toItems (wchunks info0 d P true), none, false⟩ 0 logs (fuel + 1)
      = mb_read_loop
          ⟨{ info0 with flags := cbFlags true }, bd,
            [(msg, some ⟨some (P.take (d + 1)), d + 1, total⟩)], 41 + d, ac, true⟩
          ⟨toItems (wchunks info0 d (P.drop (d + 1)) false), none, false⟩ 1 logs fuel := by
  subst hm
  subst hl
  have hle : ¬ P.length ≤ d + 1 := by omega
  rw [wchunks, dif_neg hle]
  have hck : (cbFlags true &&& SW_EVENT_DATA_CHUNK != 0) = true := by decide
  have hbg : (cbFlags true &&& SW_EVENT_DATA_BEGIN != 0) = true := by decide
  have hend : (cbFlags true &&& SW_EVENT_DATA_END != 0) = false := by decide
  simp only [toItems, List.map, mb_read_loop, sock_peek, mkflags_is_chunked, hck, Bool.not_true,
    Bool.false_eq_true, if_false, MessageBus.get_packet_buffer, lookupPool, mkflags_is_begin,
    hbg, make_string, if_pos, eq_self_iff_true, if_true, List.nil_append]
  have hk : (41 + d - sizeofDataHead) ⊓ (info0.len - 0) = d + 1 := by
    simp only [sizeofDataHead]
    omega
  rw [hk]
  have htk : (P.take (d + 1)).length ≤ d + 1 := by
    simp [List.length_take]
  simp only [sock_readv, if_pos htk, MessageBus.pool_append, lookupPool, eq_self_iff_true,
    if_true, updatePool, MessageBus.prepare_packet, mkflags_is_end, hend, Bool.not_false,
    if_true, Bool.true_eq_false]
  have htk2 : (P.take (d + 1)).length = d + 1 := by
    simp [List.length_take]
    omega
  have hw : ¬ (SW_WORKER_MAX_RECV_CHUNK_COUNT ≤ 0 + 1) := by decide
  simp only [htk2, Nat.zero_add, if_neg hw, Option.getD_some, List.nil_append]

lemma read_series_first (d msg total : Nat) (ac : Bool) (info0 : DataHead)
    (hm : info0.msg_id = msg) (hl : info0.len = total)
    (fuel : Nat) (P : List Nat) (bi : DataHead) (bd : BufData) (logs : List LogEvent)
    (hne : P ≠ []) (htot : P.length = total)
    (hf : (wchunks info0 d P true).length + 1 ≤ fuel + 1) :
    (if P.length ≤ SW_WORKER_MAX_RECV_CHUNK_COUNT * (d + 1) then
      ∃ n f2 : Nat,
        mb_read_loop ⟨bi, bd, [], 41 + d, ac, true⟩
            ⟨toItems (wchunks info0 d P true), none, false⟩ 0 logs (fuel + 1)
          = some (((sizeofDataHead + n : Nat) : Int),
              ⟨{ info0 with flags := f2 }, .ptrObj msg,
                [(msg, some ⟨some P, P.length, total⟩)], 41 + d, ac, true⟩,
              ⟨[], none, false⟩, logs)
        ∧ f2 &&& SW_EVENT_DATA_PTR = 0 ∧ f2 &&& SW_EVENT_DATA_OBJ_PTR ≠ 0
    else
      mb_read_loop ⟨bi, bd, [], 41 + d, ac, true⟩
          ⟨toItems (wchunks info0 d P true), none, false⟩ 0 logs (fuel + 1)
        = some (SW_OK,
            ⟨{ info0 with flags := cbFlags false }, bd,
              [(msg, some ⟨some (P.take (SW_WORKER_MAX_RECV_CHUNK_COUNT * (d + 1))),
                  (P.take (SW_WORKER_MAX_RECV_CHUNK_COUNT * (d + 1))).length, total⟩)],
              41 + d, ac, true⟩,
            ⟨toItems (wchunks info0 d (P.drop (SW_WORKER_MAX_RECV_CHUNK_COUNT * (d + 1))) false),
              none, false⟩,
            logs)) := by
  have hlen : 0 < P.length := List.length_pos.mpr hne
  by_cases hle : P.length ≤ d + 1
  · have hcc : P.length ≤ SW_WORKER_MAX_RECV_CHUNK_COUNT * (d + 1) := by
      calc P.length ≤ d + 1 := hle
      _ = 1 * (d + 1) := by omega
      _ ≤ SW_WORKER_MAX_RECV_CHUNK_COUNT * (d + 1) :=
          Nat.mul_le_mul_right _ (by simp [SW_WORKER_MAX_RECV_CHUNK_COUNT])
    rw [if_pos hcc]
    refine ⟨P.length, (cbFlags true ||| SW_EVENT_DATA_END) ||| SW_EVENT_DATA_OBJ_PTR, ?_,
      by decide, by decide⟩
    subst hm
    subst hl
    rw [wchunks, dif_pos hle]
    have hck : ((cbFlags true ||| SW_EVENT_DATA_END) &&& SW_EVENT_DATA_CHUNK != 0) = true := by
      decide
    have hbg : ((cbFlags true ||| SW_EVENT_DATA_END) &&& SW_EVENT_DATA_BEGIN != 0) = true := by
      decide
    have hend : ((cbFlags true ||| SW_EVENT_DATA_END) &&& SW_EVENT_DATA_END != 0) = true := by
      decide
    simp only [toItems, List.map, mb_read_loop, sock_peek, mkflags_is_chunked, hck, Bool.not_true,
      Bool.false_eq_true, if_false, MessageBus.get_packet_buffer, lookupPool, mkflags_is_begin,
      hbg, make_string, if_pos, eq_self_iff_true, if_true, List.nil_append]
    have hk : (41 + d - sizeofDataHead) ⊓ (info0.len - 0) = P.length := by
      simp only [sizeofDataHead]
      omega
    rw [hk]
    simp only [sock_readv, le_refl, if_pos, MessageBus.pool_append, lookupPool, eq_self_iff_true,
      if_true, updatePool, MessageBus.prepare_packet, mkflags_is_end, hend, Bool.not_true,
      Bool.false_eq_true, if_false]
    simp [List.length_append]
  · have hgt : P.length > d + 1 := by omega
    rw [read_series_step_first d msg total ac info0 hm hl fuel P bi bd logs hgt htot]
    have hne2 : P.drop (d + 1) ≠ [] := by
      intro hx
      have := congrArg List.length hx
      simp only [List.length_drop, List.length_nil] at this
      omega
    have hc2 : (1 : Nat) < SW_WORKER_MAX_RECV_CHUNK_COUNT := by decide
    have htot2 : (P.take (d + 1)).length + (P.drop (d + 1)).length = total := by
      simp only [List.length_take, List.length_drop]
      omega
    have hf2 : (wchunks info0 d (P.drop (d + 1)) false).length + 1 ≤ fuel := by
      rw [wchunks, dif_neg hle] at hf
      simp only [List.length_cons] at hf
      omega
    have htk2 : (P.take (d + 1)).length = d + 1 := by
      simp [List.length_take]
      omega
    have hkey := read_series_loop d msg total total ac true info0 hm hl fuel
      (P.drop (d + 1)) (P.take (d + 1)) 1 { info0 with flags := cbFlags true } bd logs
      hne2 hc2 htot2 hf2
    rw [htk2] at hkey
    have hmul : SW_WORKER_MAX_RECV_CHUNK_COUNT * (d + 1)
        = (SW_WORKER_MAX_RECV_CHUNK_COUNT - 1) * (d + 1) + (d + 1) := by
      simp only [SW_WORKER_MAX_RECV_CHUNK_COUNT]
      ring
    have hmul2 := hmul.trans (Nat.add_comm _ _)
    by_cases hdone : (P.drop (d + 1)).length ≤ (SW_WORKER_MAX_RECV_CHUNK_COUNT - 1) * (d + 1)
    · rw [if_pos hdone] at hkey
      have hcond : P.length ≤ SW_WORKER_MAX_RECV_CHUNK_COUNT * (d + 1) := by
        rw [hmul]
        simp only [List.length_drop] at hdone
        omega
      rw [if_pos hcond]
      obtain ⟨n, hn⟩ := hkey
      rw [List.take_append_drop] at hn
      exact ⟨n, (cbFlags false ||| SW_EVENT_DATA_END) ||| SW_EVENT_DATA_OBJ_PTR, hn,
        by decide, by decide⟩
    · rw [if_neg hdone] at hkey
      have hcond : ¬ P.length ≤ SW_WORKER_MAX_RECV_CHUNK_COUNT * (d + 1) := by
        rw [hmul]
        simp only [List.length_drop] at hdone
        omega
      rw [if_neg hcond]
      rw [hkey]
      have htake : P.take (d + 1)
            ++ (P.drop (d + 1)).take ((SW_WORKER_MAX_RECV_CHUNK_COUNT - 1) * (d + 1))
          = P.take (SW_WORKER_MAX_RECV_CHUNK_COUNT * (d + 1)) := by
        rw [hmul2]
        conv_rhs => rw [List.take_add]
      have hdropq : (P.drop (d + 1)).drop ((SW_WORKER_MAX_RECV_CHUNK_COUNT - 1) * (d + 1))
          = P.drop (SW_WORKER_MAX_RECV_CHUNK_COUNT * (d + 1)) := by
        rw [List.drop_drop, ← hmul2]
      rw [htake, hdropq]

end swoole

namespace swoole

lemma toItems_records_le_measure (recs : List MBRecord) :
    recs.length + 1 ≤ (⟨toItems recs, none, false⟩ : RSock).measureFuel := by
  simp only [RSock.measureFuel, toItems, Option.isSome_none, Bool.false_eq_true, if_false,
    Nat.add_zero]
  have : recs.length ≤ ((recs.map (fun r => SockItem.item r.info r.payload)).map itemSize).sum := by
    induction recs with
    | nil => simp
    | cons r t ih =>
      simp only [List.map_cons, List.sum_cons, List.length_cons, itemSize]
      omega
  omega

lemma read_until_ready_series (d msg total sz : Nat) (ac : Bool) (info0 : DataHead)
    (hm : info0.msg_id = msg) (hl : info0.len = total) :
    ∀ ofuel (bs A : List Nat) (bi : DataHead) (bd : BufData),
      bs ≠ [] → A.length + bs.length = total →
      (wchunks info0 d bs false).length + 1 ≤ ofuel →
      ∃ n : Nat,
        read_until_ready ⟨bi, bd, [(msg, some ⟨some A, A.length, sz⟩)], 41 + d, ac, true⟩
            ⟨toItems (wchunks info0 d bs false), none, false⟩ ofuel
          = some (((sizeofDataHead + n : Nat) : Int),
              ⟨{ info0 with flags := (cbFlags false ||| SW_EVENT_DATA_END) ||| SW_EVENT_DATA_OBJ_PTR },
                .ptrObj msg,
                [(msg, some ⟨some (A ++ bs), (A ++ bs).length, sz⟩)], 41 + d, ac, true⟩,
              ⟨[], none, false⟩, []) := by
  intro ofuel
  induction ofuel with
  | zero =>
    intro bs A bi bd hne htot hf
    omega
  | succ f ih =>
    intro bs A bi bd hne htot hf
    have hlen : 0 < bs.length := List.length_pos.mpr hne
    have hc0 : (0 : Nat) < SW_WORKER_MAX_RECV_CHUNK_COUNT := by decide
    have hmeas := toItems_records_le_measure (wchunks info0 d bs false)
    have hkey := read_series_loop d msg total sz ac true info0 hm hl
      ((⟨toItems (wchunks info0 d bs false), none, false⟩ : RSock).measureFuel)
      bs A 0 bi bd [] hne hc0 htot (by omega)
    rw [Nat.sub_zero] at hkey
    by_cases hdone : bs.length ≤ SW_WORKER_MAX_RECV_CHUNK_COUNT * (d + 1)
    · rw [if_pos hdone] at hkey
      obtain ⟨n, hn⟩ := hkey
      refine ⟨n, ?_⟩
      simp only [read_until_ready, mb_read, hn]
      have hnz : ¬ (((sizeofDataHead + n : Nat) : Int) = SW_OK) := by
        simp only [SW_OK, sizeofDataHead, Int.natCast_eq_zero]
        omega
      rw [if_neg hnz]
    · rw [if_neg hdone] at hkey
      have hTle : SW_WORKER_MAX_RECV_CHUNK_COUNT * (d + 1) ≤ bs.length := by omega
      have hne2 : bs.drop (SW_WORKER_MAX_RECV_CHUNK_COUNT * (d + 1)) ≠ [] := by
        intro hx
        have := congrArg List.length hx
        simp only [List.length_drop, List.length_nil] at this
        omega
      have htklen : (bs.take (SW_WORKER_MAX_RECV_CHUNK_COUNT * (d + 1))).length
          = SW_WORKER_MAX_RECV_CHUNK_COUNT * (d + 1) := by
        simp [List.length_take]
        omega
      have htot2 : (A ++ bs.take (SW_WORKER_MAX_RECV_CHUNK_COUNT * (d + 1))).length
          + (bs.drop (SW_WORKER_MAX_RECV_CHUNK_COUNT * (d + 1))).length = total := by
        simp only [List.length_append, htklen, List.length_drop]
        omega
      have hrec : (wchunks info0 d (bs.drop (SW_WORKER_MAX_RECV_CHUNK_COUNT * (d + 1))) false).length + 1
          ≤ f := by
        rw [wchunks_length info0 d _ false hne2]
        rw [wchunks_length info0 d bs false hne] at hf
        simp only [List.length_drop]
        have hsplit : bs.length + d
            = (bs.length - SW_WORKER_MAX_RECV_CHUNK_COUNT * (d + 1) + d)
              + SW_WORKER_MAX_RECV_CHUNK_COUNT * (d + 1) := by omega
        rw [hsplit, Nat.add_mul_div_right _ _ (show 0 < d + 1 by omega)] at hf
        have hM : (1 : Nat) ≤ SW_WORKER_MAX_RECV_CHUNK_COUNT := by decide
        omega
      have hIH := ih (bs.drop (SW_WORKER_MAX_RECV_CHUNK_COUNT * (d + 1)))
        (A ++ bs.take (SW_WORKER_MAX_RECV_CHUNK_COUNT * (d + 1)))
        { info0 with flags := cbFlags false } bd hne2 htot2 hrec
      obtain ⟨n, hn⟩ := hIH
      rw [List.append_assoc, List.take_append_drop] at hn
      refine ⟨n, ?_⟩
      simp only [read_until_ready, mb_read, hkey, if_true]
      exact hn

end swoole

namespace swoole

lemma read_until_ready_first (d msg total : Nat) (ac : Bool) (info0 : DataHead)
    (hm : info0.msg_id = msg) (hl : info0.len = total) :
    ∀ ofuel (P : List Nat) (bi : DataHead) (bd : BufData),
      P ≠ [] → P.length = total →
      (wchunks info0 d P true).length + 1 ≤ ofuel →
      ∃ n f2 : Nat,
        read_until_ready ⟨bi, bd, [], 41 + d, ac, true⟩
            ⟨toItems (wchunks info0 d P true), none, false⟩ ofuel
          = some (((sizeofDataHead + n : Nat) : Int),
              ⟨{ info0 with flags := f2 }, .ptrObj msg,
                [(msg, some ⟨some P, P.length, total⟩)], 41 + d, ac, true⟩,
              ⟨[], none, false⟩, [])
        ∧ f2 &&& SW_EVENT_DATA_PTR = 0 ∧ f2 &&& SW_EVENT_DATA_OBJ_PTR ≠ 0 := by
  intro ofuel P bi bd hne htot hf
  obtain ⟨f, rfl⟩ : ∃ f, ofuel = f + 1 := ⟨ofuel - 1, by omega⟩
  have hlen : 0 < P.length := List.length_pos.mpr hne
  have hmeaseq : (⟨toItems (wchunks info0 d P true), none, false⟩ : RSock).measureFuel
      = ((toItems (wchunks info0 d P true)).map itemSize).sum + 1 := by
    simp [RSock.measureFuel]
  have hmeas := toItems_records_le_measure (wchunks info0 d P true)
  rw [hmeaseq] at hmeas
  have hkey := read_series_first d msg total ac info0 hm hl
    (((toItems (wchunks info0 d P true)).map itemSize).sum) P bi bd [] hne htot (by omega)
  by_cases hdone : P.length ≤ SW_WORKER_MAX_RECV_CHUNK_COUNT * (d + 1)
  · rw [if_pos hdone] at hkey
    obtain ⟨n, f2, hn, hp1, hp2⟩ := hkey
    refine ⟨n, f2, ?_, hp1, hp2⟩
    simp only [read_until_ready, mb_read, hmeaseq, hn]
    have hnz : ¬ (((sizeofDataHead + n : Nat) : Int) = SW_OK) := by
      simp only [SW_OK, sizeofDataHead, Int.natCast_eq_zero]
      omega
    rw [if_neg hnz]
  · rw [if_neg hdone] at hkey
    have hTle : SW_WORKER_MAX_RECV_CHUNK_COUNT * (d + 1) ≤ P.length := by omega
    have hne2 : P.drop (SW_WORKER_MAX_RECV_CHUNK_COUNT * (d + 1)) ≠ [] := by
      intro hx
      have := congrArg List.length hx
      simp only [List.length_drop, List.length_nil] at this
      omega
    have htklen : (P.take (SW_WORKER_MAX_RECV_CHUNK_COUNT * (d + 1))).length
        = SW_WORKER_MAX_RECV_CHUNK_COUNT * (d + 1) := by
      simp [List.length_take]
      omega
    have htot2 : (P.take (SW_WORKER_MAX_RECV_CHUNK_COUNT * (d + 1))).length
        + (P.drop (SW_WORKER_MAX_RECV_CHUNK_COUNT * (d + 1))).length = total := by
      simp only [htklen, List.length_drop]
      omega
    have hrec : (wchunks info0 d (P.drop (SW_WORKER_MAX_RECV_CHUNK_COUNT * (d + 1))) false).length + 1
        ≤ f := by
      rw [wchunks_length info0 d _ false hne2]
      have hfw := hf
      rw [wchunks_length info0 d P true hne] at hfw
      simp only [List.length_drop]
      have hsplit : P.length + d
          = (P.length - SW_WORKER_MAX_RECV_CHUNK_COUNT * (d + 1) + d)
            + SW_WORKER_MAX_RECV_CHUNK_COUNT * (d + 1) := by omega
      rw [hsplit, Nat.add_mul_div_right _ _ (show 0 < d + 1 by omega)] at hfw
      have hM : (1 : Nat) ≤ SW_WORKER_MAX_RECV_CHUNK_COUNT := by decide
      omega
    have hIH := read_until_ready_series d msg total total ac info0 hm hl f
      (P.drop (SW_WORKER_MAX_RECV_CHUNK_COUNT * (d + 1)))
      (P.take (SW_WORKER_MAX_RECV_CHUNK_COUNT * (d + 1)))
      { info0 with flags := cbFlags false } bd hne2 (by rw [htklen] at htot2 ⊢; omega) hrec
    obtain ⟨n, hn⟩ := hIH
    rw [List.take_append_drop] at hn
    refine ⟨n, (cbFlags false ||| SW_EVENT_DATA_END) ||| SW_EVENT_DATA_OBJ_PTR, ?_,
      by decide, by decide⟩
    simp only [read_until_ready, mb_read, hmeaseq, hkey, if_true]
    exact hn

end swoole

namespace swoole

lemma read_plain_record (bus : MessageBus) (h0 : DataHead) (P : List Nat) (f : Nat)
    (hnc : h0.is_chunked = false) (hlen : h0.len = P.length) :
    read_until_ready bus ⟨[.item h0 P], none, false⟩ (f + 1)
      = some (((sizeofDataHead + P.length : Nat) : Int),
          { bus with buffer_info := h0, buffer_data := .raw P },
          ⟨[], none, false⟩, []) := by
  simp only [read_until_ready, mb_read, RSock.measureFuel, List.map, itemSize, List.sum_cons,
    List.sum_nil, Option.isSome_none, Bool.false_eq_true, if_false, Nat.add_zero]
  simp only [mb_read_loop, sock_peek, hnc, Bool.not_false, if_true, sock_read_full, hlen,
    min_self, le_refl, if_pos, List.take_length]
  have hnz : ¬ (((sizeofDataHead + P.length : Nat) : Int) = SW_OK) := by
    simp only [SW_OK, sizeofDataHead, Int.natCast_eq_zero]
    omega
  rw [if_neg hnz]

end swoole

namespace swoole

lemma mb_write_noerr_zero (cap a msg : Nat) (ac : Bool) (hd : DataHead) (P : List Nat)
    (fuel : Nat) (hz : P.length = 0) :
    mb_write (mkBus cap ac) ⟨{ hd with len := P.length }, some ⟨a, P⟩⟩ msg [] fuel
      = some (true, [⟨{ hd with msg_id := msg, flags := 0, len := 0 }, []⟩]) := by
  simp only [mb_write, hz, sendOutcome]
  simp

lemma is_chunked_of_flags_zero (h0 : DataHead) (hf : h0.flags = 0) : h0.is_chunked = false := by
  simp only [DataHead.is_chunked, hf]
  decide

lemma get_packet_inline (bus : MessageBus) (h0 : DataHead) (P : List Nat)
    (hf : h0.flags = 0) :
    ({ bus with buffer_info := h0, buffer_data := .raw P } : MessageBus).get_packet
      = ⟨h0.len, .mem P⟩ := by
  have hc1 : (h0.flags &&& SW_EVENT_DATA_PTR != 0) = false := by
    rw [hf]; decide
  have hc2 : (h0.flags &&& SW_EVENT_DATA_OBJ_PTR != 0) = false := by
    rw [hf]; decide
  simp only [MessageBus.get_packet, hc1, hc2, Bool.false_eq_true, if_false]

/-- Claim C1 (round trip): for any payload and header, `write` over an
error-free socket succeeds, and feeding the emitted record stream to
repeated `read` invocations (re-invoking while the result is 0) ends with
a READY result (> 0) whose reassembled packet, exposed through
`get_packet`, is byte-for-byte the original payload, under the original
header's `fd`, `type` and `reactor_id`, with `len` the payload length. -/
theorem C1_round_trip (P : List Nat) (d a msg : Nat) (hd : DataHead) (ac : Bool)
    (h32 : P.length < 2 ^ 32) :
    ∃ (recs : List MBRecord) (r : Int) (bus2 : MessageBus) (s2 : RSock) (lg : List LogEvent),
      mb_write (mkBus (41 + d) ac) ⟨{ hd with len := P.length }, some ⟨a, P⟩⟩ msg []
          (P.length + 2) = some (true, recs)
      ∧ read_until_ready (mkBus (41 + d) ac) ⟨toItems recs, none, false⟩ (recs.length + 1)
          = some (r, bus2, s2, lg)
      ∧ 0 < r
      ∧ bus2.get_packet = ⟨P.length, .mem P⟩
      ∧ bus2.buffer_info.len = P.length
      ∧ bus2.buffer_info.type = hd.type
      ∧ bus2.buffer_info.fd = hd.fd
      ∧ bus2.buffer_info.reactor_id = hd.reactor_id := by
  by_cases hz : P.length = 0
  · have hP : P = [] := List.length_eq_zero.mp hz
    subst hP
    have hr := read_plain_record (mkBus (41 + d) ac)
      { hd with msg_id := msg, flags := 0, len := 0 } [] 1
      (is_chunked_of_flags_zero _ rfl) rfl
    exact ⟨[⟨{ hd with msg_id := msg, flags := 0, len := 0 }, []⟩], _, _, _, _,
      mb_write_noerr_zero (41 + d) a msg ac hd [] ([].length + 2) rfl, hr,
      by decide, get_packet_inline _ _ _ rfl, rfl, rfl, rfl, rfl⟩
  · have hne : P ≠ [] := by
      intro hx; exact hz (by simp [hx])
    by_cases hsingle : ac = false ∧ P.length ≤ d + 1
    · obtain ⟨hac, hfit⟩ := hsingle
      subst hac
      have hr := read_plain_record (mkBus (41 + d) false)
        { hd with msg_id := msg, flags := 0, len := P.length } P 1
        (is_chunked_of_flags_zero _ rfl) rfl
      refine ⟨[⟨{ hd with msg_id := msg, flags := 0, len := P.length }, P⟩], _, _, _, _,
        mb_write_noerr_single d a msg hd P (P.length + 2) hne hfit, hr, ?_,
        get_packet_inline _ _ _ rfl, rfl, rfl, rfl, rfl⟩
      simp only [sizeofDataHead]
      omega
    · have hpath : ac = true ∨ d + 1 < P.length := by
        rcases Bool.eq_false_or_eq_true ac with hb | hb
        · exact Or.inl hb
        · right
          rcases Nat.lt_or_ge (d + 1) P.length with h | h
          · exact h
          · exact absurd ⟨hb, by omega⟩ hsingle
      have hw := mb_write_noerr_chunked d a msg hd P ac (P.length + 2) hne hpath (by omega)
      obtain ⟨n, f2, hres, hp1, hp2⟩ := read_until_ready_first d msg P.length ac
        { hd with msg_id := msg, len := P.length } rfl rfl
        ((wchunks { hd with msg_id := msg, len := P.length } d P true).length + 1) P
        (mkBus (41 + d) ac).buffer_info (mkBus (41 + d) ac).buffer_data hne rfl (le_refl _)
      refine ⟨wchunks { hd with msg_id := msg, len := P.length } d P true, _, _, _, _, hw,
        hres, ?_, ?_, rfl, rfl, rfl, rfl⟩
      · simp only [sizeofDataHead]
        omega
      · have h1 : (f2 &&& SW_EVENT_DATA_PTR != 0) = false := by
          simp [hp1]
        have h2 : (f2 &&& SW_EVENT_DATA_OBJ_PTR != 0) = true := by
          simpa using hp2
        simp only [MessageBus.get_packet, h1, h2, Bool.false_eq_true,
          if_false, if_true, lookupPool, eq_self_iff_true]

end swoole

namespace swoole

lemma lookupPool_updatePool (p : List (Nat × Option String)) (m : Nat) (v : Option String) :
    lookupPool p m ≠ none → lookupPool (updatePool p m v) m = some v := by
  induction p with
  | nil => intro h; exact absurd rfl h
  | cons kv rest ih =>
    intro h
    obtain ⟨k, w⟩ := kv
    by_cases hk : k = m
    · subst hk
      simp [updatePool, lookupPool]
    · simp only [updatePool, lookupPool, if_neg hk] at *
      exact ih h

/-- Claim C2 counterexample: after `move_packet` the pool entry for the
message is still present (lookup does not yield `none`), refuting the
spec's claim that the entry is erased from `packet_pool_`. -/
theorem C2_counterexample :
    lookupPool ((MessageBus.move_packet
        ⟨⟨0, 5, 2, 0, 0, 0⟩, .raw [], [(5, some ⟨some [9, 9], 2, 2⟩)], 128, false, true⟩).2).packet_pool_ 5
      ≠ none := by
  decide

/-- Claim C2 (amended): `move_packet` returns the stored byte pointer and
detaches the storage from the pool entry by nulling the entry's `str`
field; the entry itself remains in `packet_pool_` under its `msg_id`. -/
theorem C2_move_packet_detaches (bus : MessageBus) (m : Nat) (s : String)
    (hm : bus.buffer_info.msg_id = m)
    (hlook : lookupPool bus.packet_pool_ m = some (some s)) :
    (bus.move_packet).1 = s.str
    ∧ (bus.move_packet).2.packet_pool_ = updatePool bus.packet_pool_ m (some { s with str := none })
    ∧ lookupPool (bus.move_packet).2.packet_pool_ m = some (some { s with str := none }) := by
  simp only [MessageBus.move_packet, hm, hlook]
  refine ⟨trivial, trivial, ?_⟩
  exact lookupPool_updatePool bus.packet_pool_ m _ (by rw [hlook]; simp)

/-- Witness for the amended claim C2 theorem at a concrete bus. -/
theorem C2_move_packet_detaches_witness :
    ((⟨⟨0, 5, 2, 0, 0, 0⟩, .raw [], [(5, some ⟨some [9, 9], 2, 2⟩)], 128, false, true⟩ :
        MessageBus).move_packet).1 = (⟨some [9, 9], 2, 2⟩ : String).str := by
  exact (C2_move_packet_detaches _ 5 _ rfl (by decide)).1

/-- Claim C3: in `read`, a chunked record whose `msg_id` has no pool
entry and whose BEGIN flag is clear is an orphan: the abnormal-pipeline
warning is logged, the datagram is consumed from the socket and its
payload discarded, and the invocation returns `SW_OK` (0). -/
theorem C3_orphan_chunk_stream (bus : MessageBus) (h : DataHead) (p : List Nat)
    (rest : List SockItem)
    (hck : h.is_chunked = true) (hbg : h.is_begin = false)
    (hlook : lookupPool bus.packet_pool_ h.msg_id = none) :
    mb_read bus ⟨.item h p :: rest, none, false⟩
      = some (SW_OK, { bus with buffer_info := h },
          ⟨(if p.isEmpty then rest else .stray p :: rest), none, false⟩,
          [.abnormal h.msg_id])
    ∧ lookupPool ({ bus with buffer_info := h } : MessageBus).packet_pool_ h.msg_id = none := by
  refine ⟨?_, hlook⟩
  simp only [mb_read, RSock.measureFuel, List.map, itemSize, List.sum_cons,
    Option.isSome_none, Bool.false_eq_true, if_false, Nat.add_zero]
  simp only [mb_read_loop, sock_peek, hck, Bool.not_true, Bool.false_eq_true, if_false,
    MessageBus.get_packet_buffer, hlook, hbg, Bool.not_false, if_true, sock_discard_head,
    List.nil_append]

/-- Witness for claim C3 at a concrete orphan chunk. -/
theorem C3_orphan_chunk_stream_witness :
    mb_read (mkBus 128 false) ⟨[.item ⟨0, 99, 10, 0, 0, 4⟩ [1, 2]], none, false⟩
      = some (SW_OK, { (mkBus 128 false) with buffer_info := ⟨0, 99, 10, 0, 0, 4⟩ },
          ⟨[.stray [1, 2]], none, false⟩, [.abnormal 99]) := by
  have := C3_orphan_chunk_stream (mkBus 128 false) ⟨0, 99, 10, 0, 0, 4⟩ [1, 2] []
    (by decide) (by decide) (by decide)
  exact this.1

/-- Claim C4 counterexample: on an orphan chunk, `read_with_buffer`
returns `SW_ERR`, not the `SW_OK` the spec claims. -/
theorem C4_counterexample :
    readBufResult (mkBus 128 false) ⟨[.item ⟨0, 99, 10, 0, 0, 4⟩ [1, 2]], none, false⟩
        = some SW_ERR
    ∧ SW_ERR ≠ SW_OK := by
  constructor
  · decide
  · decide

/-- Claim C4 (amended): in `read_with_buffer`, an orphan chunk (no pool
entry for the `msg_id`, BEGIN clear) logs the abnormal-pipeline warning
and makes the invocation return `SW_ERR`; the datagram was already read
into the bus buffer, so nothing is left on the socket to resync. -/
theorem C4_orphan_chunk_dgram (bus : MessageBus) (h : DataHead) (p : List Nat)
    (rest : List SockItem)
    (hck : h.is_chunked = true) (hbg : h.is_begin = false)
    (hlook : lookupPool bus.packet_pool_ h.msg_id = none) :
    mb_read_with_buffer bus ⟨.item h p :: rest, none, false⟩
      = some (SW_ERR,
          { bus with
            buffer_info := h
            buffer_data := .raw (p.take (bus.buffer_size_ - sizeofDataHead)) },
          ⟨rest, none, false⟩, [.abnormal h.msg_id])
    ∧ lookupPool ({ bus with buffer_info := h } : MessageBus).packet_pool_ h.msg_id = none := by
  refine ⟨?_, hlook⟩
  simp only [mb_read_with_buffer, RSock.measureFuel, List.map, itemSize, List.sum_cons,
    Option.isSome_none, Bool.false_eq_true, if_false, Nat.add_zero]
  simp only [mb_read_with_buffer_loop, sock_read_dgram, hck, Bool.not_true, Bool.false_eq_true,
    if_false, MessageBus.get_packet_buffer, hlook, hbg, Bool.not_false, if_true,
    List.nil_append]

/-- Witness for the amended claim C4 theorem at a concrete orphan
datagram. -/
theorem C4_orphan_chunk_dgram_witness :
    mb_read_with_buffer (mkBus 128 false) ⟨[.item ⟨0, 99, 10, 0, 0, 4⟩ [1, 2]], none, false⟩
      = some (SW_ERR,
          { (mkBus 128 false) with
            buffer_info := ⟨0, 99, 10, 0, 0, 4⟩
            buffer_data := .raw [1, 2] },
          ⟨[], none, false⟩, [.abnormal 99]) := by
  have := C4_orphan_chunk_dgram (mkBus 128 false) ⟨0, 99, 10, 0, 0, 4⟩ [1, 2] []
    (by decide) (by decide) (by decide)
  simpa [mkBus, sizeofDataHead] using this.1

end swoole

namespace swoole

/-- Claim C8 counterexample: a fatal `readv` error does not make `read`
return `SW_ERR` immediately: with a non-END chunk at the head the loop
runs again and the invocation returns the following record's byte count
(41), refuting the spec's immediate-abort claim. -/
theorem C8_counterexample :
    readResult (mkBus 42 false)
        ⟨[.item ⟨0, 3, 2, 0, 0, 12⟩ [5], .item ⟨0, 3, 2, 0, 0, 20⟩ [6]], some true, false⟩
      = some 41
    ∧ (41 : Int) ≠ SW_ERR := by
  constructor
  · decide
  · decide

/-- Claim C8 (amended): on a fatal `readv` error the chunk append is
skipped and control falls through to `prepare_packet`; for an END chunk
this returns READY, so the invocation result is the negative `readv`
return value (`SW_ERR`), and the pool entry is left unchanged. -/
theorem C8_fatal_readv_end_chunk (bus : MessageBus) (h : DataHead) (p : List Nat)
    (rest : List SockItem) (s0 : String)
    (hck : h.is_chunked = true) (hend : h.is_end = true)
    (hlook : lookupPool bus.packet_pool_ h.msg_id = some (some s0)) :
    mb_read bus ⟨.item h p :: rest, some true, false⟩
      = some (SW_ERR,
          { bus with
            buffer_info := { h with flags := h.flags ||| SW_EVENT_DATA_OBJ_PTR }
            buffer_data := .ptrObj h.msg_id },
          ⟨.item h p :: rest, none, false⟩, [])
    ∧ ({ bus with
          buffer_info := { h with flags := h.flags ||| SW_EVENT_DATA_OBJ_PTR }
          buffer_data := .ptrObj h.msg_id } : MessageBus).packet_pool_ = bus.packet_pool_ := by
  refine ⟨?_, rfl⟩
  simp only [mb_read, RSock.measureFuel, List.map, itemSize, List.sum_cons,
    Option.isSome_some, if_true, if_pos]
  simp only [mb_read_loop, sock_peek, hck, Bool.not_true, Bool.false_eq_true, if_false,
    MessageBus.get_packet_buffer, hlook, sock_readv, MessageBus.prepare_packet,
    mkflags_is_end]
  rw [mkflags_is_end] at *
  simp only [hend, Bool.not_true, Bool.false_eq_true, if_false]
  rfl

/-- Witness for the amended claim C8 theorem at a concrete END chunk with
an injected fatal `readv` error. -/
theorem C8_fatal_readv_end_chunk_witness :
    mb_read ⟨⟨0, 0, 0, 0, 0, 0⟩, .raw [], [(3, some ⟨some [7], 1, 2⟩)], 42, false, true⟩
        ⟨[.item ⟨0, 3, 2, 0, 0, 20⟩ [6]], some true, false⟩
      = some (SW_ERR,
          ⟨⟨0, 3, 2, 0, 0, 20 ||| SW_EVENT_DATA_OBJ_PTR⟩, .ptrObj 3,
            [(3, some ⟨some [7], 1, 2⟩)], 42, false, true⟩,
          ⟨[.item ⟨0, 3, 2, 0, 0, 20⟩ [6]], none, false⟩, []) := by
  have := C8_fatal_readv_end_chunk
    ⟨⟨0, 0, 0, 0, 0, 0⟩, .raw [], [(3, some ⟨some [7], 1, 2⟩)], 42, false, true⟩
    ⟨0, 3, 2, 0, 0, 20⟩ [6] [] ⟨some [7], 1, 2⟩ (by decide) (by decide) (by decide)
  exact this.1

/-- Claim C9 counterexample: with a failing allocator,
`get_packet_buffer` returns null yet a (null) entry for the `msg_id` is
now in the pool, refuting the spec's claim that no entry is inserted. -/
theorem C9_counterexample :
    ((⟨⟨0, 7, 5, 0, 0, 12⟩, .raw [], [], 128, false, false⟩ : MessageBus).get_packet_buffer).1
        = none
    ∧ lookupPool ((⟨⟨0, 7, 5, 0, 0, 12⟩, .raw [], [], 128, false,
        false⟩ : MessageBus).get_packet_buffer).2.packet_pool_ 7 = some none := by
  constructor
  · decide
  · decide

/-- Claim C9 (amended; `make_string` is modelled from the spec as
returning null on allocation failure): on a BEGIN chunk with no existing
entry and a failing allocator, `get_packet_buffer` returns null and still
emplaces a null-string entry for the `msg_id` into `packet_pool_`. -/
theorem C9_alloc_failure_inserts_null (bus : MessageBus)
    (hlook : lookupPool bus.packet_pool_ bus.buffer_info.msg_id = none)
    (hbg : bus.buffer_info.is_begin = true) (hak : bus.alloc_ok = false) :
    bus.get_packet_buffer
      = (none, { bus with
          packet_pool_ := bus.packet_pool_ ++ [(bus.buffer_info.msg_id, none)] })
    ∧ lookupPool (bus.get_packet_buffer).2.packet_pool_ bus.buffer_info.msg_id = some none := by
  have hmk : make_string bus.buffer_info.len bus.alloc_ok = none := by
    rw [hak]
    simp [make_string]
  have hmain : bus.get_packet_buffer
      = (none, { bus with
          packet_pool_ := bus.packet_pool_ ++ [(bus.buffer_info.msg_id, none)] }) := by
    simp only [MessageBus.get_packet_buffer, hlook, hbg, Bool.not_true, Bool.false_eq_true,
      if_false, hmk]
  refine ⟨hmain, ?_⟩
  rw [hmain]
  have : ∀ pl : List (Nat × Option String), lookupPool pl bus.buffer_info.msg_id = none →
      lookupPool (pl ++ [(bus.buffer_info.msg_id, none)]) bus.buffer_info.msg_id = some none := by
    intro pl
    induction pl with
    | nil => intro _; simp [lookupPool]
    | cons kv rest ih =>
      intro hh
      obtain ⟨k, w⟩ := kv
      by_cases hk : k = bus.buffer_info.msg_id
      · subst hk
        simp [lookupPool] at hh
      · simp only [lookupPool, if_neg hk] at hh ⊢
        exact ih hh
  exact this bus.packet_pool_ hlook

/-- Witness for the amended claim C9 theorem at a concrete bus with a
failing allocator. -/
theorem C9_alloc_failure_inserts_null_witness :
    (⟨⟨0, 7, 5, 0, 0, 12⟩, .raw [], [], 128, false, false⟩ : MessageBus).get_packet_buffer
      = (none, ⟨⟨0, 7, 5, 0, 0, 12⟩, .raw [], [(7, none)], 128, false, false⟩) := by
  have := C9_alloc_failure_inserts_null
    ⟨⟨0, 7, 5, 0, 0, 12⟩, .raw [], [], 128, false, false⟩ (by decide) (by decide) rfl
  simpa using this.1

/-- Claim C10: `pass` is a zero-copy handoff. For a non-empty task it
stores only a `PacketPtr` (original length plus the external payload
address) in the buffer and flags the header `SW_EVENT_DATA_PTR`, so
`get_packet` yields the original address and length without copying the
bytes; for an empty task the header is copied verbatim and `get_packet`
reports length 0. -/
theorem C10_pass_zero_copy :
    (∀ (bus : MessageBus) (task : SendData) (pl : Payload),
      task.data = some pl → 0 < task.info.len →
      (bus.pass task).get_packet = ⟨task.info.len, .ext pl.addr⟩)
    ∧ (∀ (bus : MessageBus) (task : SendData),
      task.info.len = 0 →
      task.info.flags &&& SW_EVENT_DATA_PTR = 0 →
      task.info.flags &&& SW_EVENT_DATA_OBJ_PTR = 0 →
      (bus.pass task).buffer_info = task.info
      ∧ ((bus.pass task).get_packet).length = 0) := by
  constructor
  · intro bus task pl hdata hpos
    simp only [MessageBus.pass, if_pos hpos, hdata, Option.map_some, Option.getD_some]
    have h1 : (SW_EVENT_DATA_PTR &&& SW_EVENT_DATA_PTR != 0) = true := by decide
    simp only [MessageBus.get_packet, h1, if_true]
    simp
  · intro bus task hz hp1 hp2
    have hnpos : ¬ task.info.len > 0 := by omega
    simp only [MessageBus.pass, if_neg hnpos]
    refine ⟨trivial, ?_⟩
    have h1 : (task.info.flags &&& SW_EVENT_DATA_PTR != 0) = false := by simp [hp1]
    have h2 : (task.info.flags &&& SW_EVENT_DATA_OBJ_PTR != 0) = false := by simp [hp2]
    simp only [MessageBus.get_packet, h1, h2, Bool.false_eq_true, if_false]
    exact hz

/-- Witness for claim C10 at a concrete pointer task and an empty
task. -/
theorem C10_pass_zero_copy_witness :
    ((mkBus 128 false).pass ⟨⟨7, 0, 3, 2, 5, 0⟩, some ⟨500, [1, 2, 3]⟩⟩).get_packet
        = ⟨3, .ext 500⟩
    ∧ ((mkBus 128 false).pass ⟨⟨7, 0, 0, 2, 5, 0⟩, none⟩).buffer_info = ⟨7, 0, 0, 2, 5, 0⟩ := by
  constructor
  · exact C10_pass_zero_copy.1 (mkBus 128 false) ⟨⟨7, 0, 3, 2, 5, 0⟩, some ⟨500, [1, 2, 3]⟩⟩
      ⟨500, [1, 2, 3]⟩ rfl (by decide)
  · exact (C10_pass_zero_copy.2 (mkBus 128 false) ⟨⟨7, 0, 0, 2, 5, 0⟩, none⟩
      rfl (by decide) (by decide)).1

end swoole

namespace swoole

/-- Witness for claim C1 at payload `[1, 2, 3]` over a 42-byte bus. -/
theorem C1_round_trip_witness :
    ∃ (recs : List MBRecord) (r : Int) (bus2 : MessageBus) (s2 : RSock) (lg : List LogEvent),
      mb_write (mkBus (41 + 1) false)
          ⟨{ (⟨7, 0, 3, 2, 5, 0⟩ : DataHead) with len := ([1, 2, 3] : List Nat).length },
            some ⟨100, [1, 2, 3]⟩⟩ 11 [] (([1, 2, 3] : List Nat).length + 2)
        = some (true, recs)
      ∧ read_until_ready (mkBus (41 + 1) false) ⟨toItems recs, none, false⟩ (recs.length + 1)
          = some (r, bus2, s2, lg)
      ∧ 0 < r
      ∧ bus2.get_packet = ⟨([1, 2, 3] : List Nat).length, .mem [1, 2, 3]⟩
      ∧ bus2.buffer_info.len = ([1, 2, 3] : List Nat).length
      ∧ bus2.buffer_info.type = (⟨7, 0, 3, 2, 5, 0⟩ : DataHead).type
      ∧ bus2.buffer_info.fd = (⟨7, 0, 3, 2, 5, 0⟩ : DataHead).fd
      ∧ bus2.buffer_info.reactor_id = (⟨7, 0, 3, 2, 5, 0⟩ : DataHead).reactor_id :=
  C1_round_trip [1, 2, 3] 1 100 11 ⟨7, 0, 3, 2, 5, 0⟩ false (by norm_num)

lemma wchunks_head_end_of_long (info0 : DataHead) (d : Nat) (bs : List Nat) (first : Bool)
    (hgt : d + 1 < bs.length) :
    ∀ r, (wchunks info0 d bs first).head? = some r → r.info.is_end = false := by
  rw [wchunks, dif_neg (by omega)]
  intro r hr
  simp only [List.head?_cons, Option.some.injEq] at hr
  subst hr
  cases first <;>
    simp [DataHead.is_end, cbFlags, SW_EVENT_DATA_CHUNK, SW_EVENT_DATA_BEGIN,
      SW_EVENT_DATA_END] <;> decide

/-- Claim C6: a chunked `write` (forced by `always_chunked_transfer_` or
by a payload larger than one buffer) emits a series of records that all
carry the generated `msg_id`, the total payload length in `len`, and the
CHUNK flag; only the first record carries BEGIN, exactly the last carries
END, and the per-record payloads concatenate back to the original
payload. -/
theorem C6_chunk_series (P : List Nat) (d a msg : Nat) (hd : DataHead) (ac : Bool)
    (hne : P ≠ []) (hpath : ac = true ∨ d + 1 < P.length) :
    ∃ recs : List MBRecord,
      mb_write (mkBus (41 + d) ac) ⟨{ hd with len := P.length }, some ⟨a, P⟩⟩ msg []
          (P.length + 2) = some (true, recs)
      ∧ recs ≠ []
      ∧ (∀ r ∈ recs, r.info.msg_id = msg ∧ r.info.len = P.length ∧ r.info.is_chunked = true)
      ∧ (∀ r, recs.head? = some r → r.info.is_begin = true)
      ∧ (∀ r ∈ recs.tail, r.info.is_begin = false)
      ∧ (∀ r, recs.getLast? = some r → r.info.is_end = true)
      ∧ (∀ r ∈ recs.dropLast, r.info.is_end = false)
      ∧ (recs.map MBRecord.payload).flatten = P := by
  refine ⟨wchunks { hd with msg_id := msg, len := P.length } d P true,
    mb_write_noerr_chunked d a msg hd P ac (P.length + 2) hne hpath (by omega),
    wchunks_ne_nil _ _ _ _, ?_, ?_, wchunks_tail_no_begin _ _ _ _,
    wchunks_getLast_end _ _ _ _, wchunks_dropLast_no_end _ _ _ _, wchunks_join _ _ _ _⟩
  · intro r hr
    obtain ⟨h1, h2, h3, h4, h5, h6⟩ := wchunks_info { hd with msg_id := msg, len := P.length } d
      P true r hr
    exact ⟨h1, h2, h6⟩
  · exact wchunks_head_begin _ _ _ _

/-- Witness for claim C6 at payload `[8, 9]` with forced chunking. -/
theorem C6_chunk_series_witness :
    ∃ recs : List MBRecord,
      mb_write (mkBus (41 + 0) true)
          ⟨{ (⟨7, 0, 2, 2, 5, 0⟩ : DataHead) with len := ([8, 9] : List Nat).length },
            some ⟨100, [8, 9]⟩⟩ 11 [] (([8, 9] : List Nat).length + 2)
        = some (true, recs)
      ∧ recs ≠ []
      ∧ (∀ r ∈ recs, r.info.msg_id = 11 ∧ r.info.len = ([8, 9] : List Nat).length ∧
          r.info.is_chunked = true)
      ∧ (∀ r, recs.head? = some r → r.info.is_begin = true)
      ∧ (∀ r ∈ recs.tail, r.info.is_begin = false)
      ∧ (∀ r, recs.getLast? = some r → r.info.is_end = true)
      ∧ (∀ r ∈ recs.dropLast, r.info.is_end = false)
      ∧ (recs.map MBRecord.payload).flatten = [8, 9] :=
  C6_chunk_series [8, 9] 0 100 11 ⟨7, 0, 2, 2, 5, 0⟩ true (by decide) (Or.inl rfl)

end swoole

namespace swoole

lemma write_chunk_loop_floor (base : DataHead) (P : List Nat) (fuel : Nat)
    (hne : P ≠ []) (hf : P.length + 1 ≤ fuel) :
    write_chunk_loop P base (SW_EVENT_DATA_CHUNK ||| SW_EVENT_DATA_BEGIN) P.length 0
        SW_IPC_BUFFER_SIZE [] [] fuel
      = some (true, wchunks base 8191 P true) := by
  have hcb : SW_EVENT_DATA_CHUNK ||| SW_EVENT_DATA_BEGIN = cbFlags true := by decide
  have h8192 : SW_IPC_BUFFER_SIZE = 8191 + 1 := by decide
  rw [hcb, h8192]
  exact write_chunk_loop_noerr base 8191 P fuel P true 0 [] (by simp) hne hf

lemma floor_series_props (base : DataHead) (P : List Nat) (e : Nat)
    (hlen8 : P.length = 8193 + e) :
    (wchunks base 8191 P true).length = (P.length + 8191) / 8192
    ∧ (∀ r, (wchunks base 8191 P true).head? = some r →
        r.info.is_begin = true ∧ r.info.is_end = false ∧ r.payload = P.take 8192)
    ∧ (∀ r ∈ (wchunks base 8191 P true).tail, r.info.is_begin = false)
    ∧ (∀ r, (wchunks base 8191 P true).getLast? = some r → r.info.is_end = true)
    ∧ (∀ r ∈ (wchunks base 8191 P true).dropLast, r.info.is_end = false)
    ∧ ((wchunks base 8191 P true).map MBRecord.payload).flatten = P := by
  have hne : P ≠ [] := by
    intro hx
    rw [hx] at hlen8
    simp only [List.length_nil] at hlen8
    omega
  have h8192 : (8191 : Nat) + 1 = 8192 := by norm_num
  refine ⟨?_, ?_, wchunks_tail_no_begin _ _ _ _, wchunks_getLast_end _ _ _ _,
    wchunks_dropLast_no_end _ _ _ _, wchunks_join _ _ _ _⟩
  · rw [wchunks_length base 8191 P true hne, h8192]
  · intro r hr
    refine ⟨wchunks_head_begin _ _ _ _ r hr,
      wchunks_head_end_of_long base 8191 P true (by omega) r hr, ?_⟩
    rw [wchunks_head_payload base 8191 P true r hr, h8192]

lemma mb_write_downshift_loop (P : List Nat) (e a msg : Nat) (hd : DataHead)
    (hlen8 : P.length = 8193 + e) :
    mb_write (mkBus (40 + P.length) true) ⟨{ hd with len := P.length }, some ⟨a, P⟩⟩ msg
        [some .reduceSize] (P.length + 2)
      = some (true, wchunks { hd with msg_id := msg, len := P.length } 8191 P true) := by
  have hlen : 0 < P.length := by omega
  simp only [mb_write, mkBus, sizeofDataHead]
  have hmax : 40 + P.length - 40 = P.length := by omega
  rw [hmax]
  have hcond : ¬ (P.length = 0 ∨ (some (⟨a, P⟩ : Payload) : Option Payload) = none) := by
    simp [hlen.ne']
  rw [if_neg hcond]
  have hnf : ¬ ((true : Bool) = false ∧ P.length ≤ P.length) := by simp
  rw [if_neg hnf]
  obtain ⟨g, hg⟩ : ∃ g, P.length + 2 = g + 1 := ⟨P.length + 1, rfl⟩
  rw [hg]
  simp only [write_chunk_loop, sendOutcome, if_neg hlen.ne', Option.map_some,
    Option.getD_some]
  have hngt : ¬ P.length > P.length := by omega
  rw [if_neg hngt]
  have hred : (True ∧ P.length > SW_IPC_BUFFER_SIZE) := by
    refine ⟨trivial, ?_⟩
    simp only [SW_IPC_BUFFER_SIZE]
    omega
  rw [if_pos hred]
  have hfl : (if (SW_EVENT_DATA_CHUNK ||| SW_EVENT_DATA_BEGIN ||| SW_EVENT_DATA_END) &&&
        SW_EVENT_DATA_END != 0 then
      flagClear (SW_EVENT_DATA_CHUNK ||| SW_EVENT_DATA_BEGIN ||| SW_EVENT_DATA_END)
        SW_EVENT_DATA_END
    else SW_EVENT_DATA_CHUNK ||| SW_EVENT_DATA_BEGIN ||| SW_EVENT_DATA_END)
      = SW_EVENT_DATA_CHUNK ||| SW_EVENT_DATA_BEGIN := by decide
  rw [hfl]
  have hg2 : g = P.length + 1 := by omega
  rw [hg2]
  exact write_chunk_loop_floor { hd with msg_id := msg, len := P.length } P (P.length + 1)
    (by intro hx; rw [hx] at hlen8; simp only [List.length_nil] at hlen8; omega) (le_refl _)

end swoole

namespace swoole

lemma mb_write_downshift_single (P : List Nat) (e a msg : Nat) (hd : DataHead)
    (hlen8 : P.length = 8193 + e) :
    mb_write (mkBus (40 + P.length) false) ⟨{ hd with len := P.length }, some ⟨a, P⟩⟩ msg
        [some .reduceSize] (P.length + 2)
      = some (true, wchunks { hd with msg_id := msg, len := P.length } 8191 P true) := by
  have hlen : 0 < P.length := by omega
  simp only [mb_write, mkBus, sizeofDataHead, Option.map_some, Option.getD_some]
  have hmax : 40 + P.length - 40 = P.length := by omega
  rw [hmax]
  have hcond : ¬ (P.length = 0 ∨ (some (⟨a, P⟩ : Payload) : Option Payload) = none) := by
    simp [hlen.ne']
  rw [if_neg hcond]
  have hfits : (True ∧ P.length ≤ P.length) := ⟨trivial, le_refl _⟩
  rw [if_pos hfits]
  simp only [sendOutcome]
  have hred : (True ∧ P.length > SW_IPC_BUFFER_SIZE) := by
    refine ⟨trivial, ?_⟩
    simp only [SW_IPC_BUFFER_SIZE]
    omega
  rw [if_pos hred]
  exact write_chunk_loop_floor { hd with msg_id := msg, len := P.length } P (P.length + 2)
    (by intro hx; rw [hx] at hlen8; simp only [List.length_nil] at hlen8; omega) (by omega)

lemma mb_write_floor_fail_single (P : List Nat) (a msg : Nat) (hd : DataHead) (w : WErr)
    (hne : P ≠ []) (hfit : P.length ≤ 8192) :
    mb_write (mkBus (40 + 8192) false) ⟨{ hd with len := P.length }, some ⟨a, P⟩⟩ msg
        [some w] (P.length + 2)
      = some (false, []) := by
  have hlen : 0 < P.length := List.length_pos.mpr hne
  simp only [mb_write, mkBus, sizeofDataHead, Option.map_some, Option.getD_some]
  have hmax : 40 + 8192 - 40 = 8192 := by omega
  rw [hmax]
  have hcond : ¬ (P.length = 0 ∨ (some (⟨a, P⟩ : Payload) : Option Payload) = none) := by
    simp [hlen.ne']
  rw [if_neg hcond]
  have hfits : (True ∧ P.length ≤ 8192) := ⟨trivial, hfit⟩
  rw [if_pos hfits]
  simp only [sendOutcome]
  have hnred : ¬ (w = WErr.reduceSize ∧ (8192 : Nat) > SW_IPC_BUFFER_SIZE) := by
    rintro ⟨-, hx⟩
    simp only [SW_IPC_BUFFER_SIZE] at hx
    omega
  rw [if_neg hnred]

lemma mb_write_floor_fail_loop (P : List Nat) (a msg : Nat) (hd : DataHead) (w : WErr)
    (hne : P ≠ []) (hfit : P.length ≤ 8192) :
    mb_write (mkBus (40 + 8192) true) ⟨{ hd with len := P.length }, some ⟨a, P⟩⟩ msg
        [some w] (P.length + 2)
      = some (false, []) := by
  have hlen : 0 < P.length := List.length_pos.mpr hne
  simp only [mb_write, mkBus, sizeofDataHead, Option.map_some, Option.getD_some]
  have hmax : 40 + 8192 - 40 = 8192 := by omega
  rw [hmax]
  have hcond : ¬ (P.length = 0 ∨ (some (⟨a, P⟩ : Payload) : Option Payload) = none) := by
    simp [hlen.ne']
  rw [if_neg hcond]
  have hnf : ¬ ((true : Bool) = false ∧ P.length ≤ 8192) := by simp
  rw [if_neg hnf]
  obtain ⟨g, hg⟩ : ∃ g, P.length + 2 = g + 1 := ⟨P.length + 1, rfl⟩
  rw [hg]
  simp only [write_chunk_loop, sendOutcome, if_neg hlen.ne']
  have hnred : ¬ (w = WErr.reduceSize ∧ (8192 : Nat) > SW_IPC_BUFFER_SIZE) := by
    rintro ⟨-, hx⟩
    simp only [SW_IPC_BUFFER_SIZE] at hx
    omega
  have hngt : ¬ P.length > 8192 := by omega
  simp only [if_neg hngt]
  rw [if_neg hnred]

/-- Claim C7: when a send fails and `catch_write_pipe_error` classifies
the error as reduce-size while `max_length` is still above
`SW_IPC_BUFFER_SIZE`, `write` downshifts `max_length` to
`SW_IPC_BUFFER_SIZE` and retries from the same offset, so the whole
payload is still delivered, now in floor-sized chunks (whether the
failure hit the single-send fast path or the chunk loop); if `max_length`
is already at the floor, or the error is fatal, `write` fails. -/
theorem C7_reduce_size_downshift :
    (∀ (P : List Nat) (e a msg : Nat) (hd : DataHead), P.length = 8193 + e →
      ∃ recs : List MBRecord,
        mb_write (mkBus (40 + P.length) true) ⟨{ hd with len := P.length }, some ⟨a, P⟩⟩ msg
            [some .reduceSize] (P.length + 2) = some (true, recs)
        ∧ recs.length = (P.length + 8191) / 8192
        ∧ (∀ r, recs.head? = some r → r.info.is_begin = true ∧ r.info.is_end = false
            ∧ r.payload = P.take 8192)
        ∧ (∀ r ∈ recs.tail, r.info.is_begin = false)
        ∧ (∀ r, recs.getLast? = some r → r.info.is_end = true)
        ∧ (∀ r ∈ recs.dropLast, r.info.is_end = false)
        ∧ (recs.map MBRecord.payload).flatten = P)
    ∧ (∀ (P : List Nat) (e a msg : Nat) (hd : DataHead), P.length = 8193 + e →
      ∃ recs : List MBRecord,
        mb_write (mkBus (40 + P.length) false) ⟨{ hd with len := P.length }, some ⟨a, P⟩⟩ msg
            [some .reduceSize] (P.length + 2) = some (true, recs)
        ∧ recs.length = (P.length + 8191) / 8192
        ∧ (∀ r, recs.head? = some r → r.info.is_begin = true ∧ r.info.is_end = false
            ∧ r.payload = P.take 8192)
        ∧ (recs.map MBRecord.payload).flatten = P)
    ∧ (∀ (P : List Nat) (a msg : Nat) (hd : DataHead), P ≠ [] → P.length ≤ 8192 →
      mb_write (mkBus (40 + 8192) false) ⟨{ hd with len := P.length }, some ⟨a, P⟩⟩ msg
          [some .reduceSize] (P.length + 2) = some (false, []))
    ∧ (∀ (P : List Nat) (a msg : Nat) (hd : DataHead), P ≠ [] → P.length ≤ 8192 →
      mb_write (mkBus (40 + 8192) true) ⟨{ hd with len := P.length }, some ⟨a, P⟩⟩ msg
          [some .reduceSize] (P.length + 2) = some (false, []))
    ∧ (∀ (P : List Nat) (a msg : Nat) (hd : DataHead), P ≠ [] → P.length ≤ 8192 →
      mb_write (mkBus (40 + 8192) false) ⟨{ hd with len := P.length }, some ⟨a, P⟩⟩ msg
          [some .fatal] (P.length + 2) = some (false, [])) := by
  refine ⟨?_, ?_, ?_, ?_, ?_⟩
  · intro P e a msg hd hlen8
    obtain ⟨hL, hH, hT, hG, hD, hF⟩ :=
      floor_series_props { hd with msg_id := msg, len := P.length } P e hlen8
    exact ⟨wchunks { hd with msg_id := msg, len := P.length } 8191 P true,
      mb_write_downshift_loop P e a msg hd hlen8, hL, hH, hT, hG, hD, hF⟩
  · intro P e a msg hd hlen8
    obtain ⟨hL, hH, hT, hG, hD, hF⟩ :=
      floor_series_props { hd with msg_id := msg, len := P.length } P e hlen8
    exact ⟨wchunks { hd with msg_id := msg, len := P.length } 8191 P true,
      mb_write_downshift_single P e a msg hd hlen8, hL, hH, hF⟩
  · intro P a msg hd hne hfit
    exact mb_write_floor_fail_single P a msg hd .reduceSize hne hfit
  · intro P a msg hd hne hfit
    exact mb_write_floor_fail_loop P a msg hd .reduceSize hne hfit
  · intro P a msg hd hne hfit
    exact mb_write_floor_fail_single P a msg hd .fatal hne hfit

end swoole

namespace swoole

/-- Witness for claim C7 at an 8193-byte payload (downshift cases) and a
1-byte payload (failure cases). -/
theorem C7_reduce_size_downshift_witness :
    (∃ recs : List MBRecord,
      mb_write (mkBus (40 + (List.replicate 8193 (0 : Nat)).length) true)
          ⟨{ (⟨0, 0, 0, 0, 0, 0⟩ : DataHead) with len := (List.replicate 8193 (0 : Nat)).length },
            some ⟨1, List.replicate 8193 0⟩⟩ 2 [some .reduceSize]
          ((List.replicate 8193 (0 : Nat)).length + 2) = some (true, recs)
      ∧ recs.length = ((List.replicate 8193 (0 : Nat)).length + 8191) / 8192
      ∧ (∀ r, recs.head? = some r → r.info.is_begin = true ∧ r.info.is_end = false
          ∧ r.payload = (List.replicate 8193 (0 : Nat)).take 8192)
      ∧ (∀ r ∈ recs.tail, r.info.is_begin = false)
      ∧ (∀ r, recs.getLast? = some r → r.info.is_end = true)
      ∧ (∀ r ∈ recs.dropLast, r.info.is_end = false)
      ∧ (recs.map MBRecord.payload).flatten = List.replicate 8193 0)
    ∧ (∃ recs : List MBRecord,
      mb_write (mkBus (40 + (List.replicate 8193 (0 : Nat)).length) false)
          ⟨{ (⟨0, 0, 0, 0, 0, 0⟩ : DataHead) with len := (List.replicate 8193 (0 : Nat)).length },
            some ⟨1, List.replicate 8193 0⟩⟩ 2 [some .reduceSize]
          ((List.replicate 8193 (0 : Nat)).length + 2) = some (true, recs)
      ∧ recs.length = ((List.replicate 8193 (0 : Nat)).length + 8191) / 8192
      ∧ (∀ r, recs.head? = some r → r.info.is_begin = true ∧ r.info.is_end = false
          ∧ r.payload = (List.replicate 8193 (0 : Nat)).take 8192)
      ∧ (recs.map MBRecord.payload).flatten = List.replicate 8193 0)
    ∧ mb_write (mkBus (40 + 8192) false)
        ⟨{ (⟨0, 0, 0, 0, 0, 0⟩ : DataHead) with len := ([1] : List Nat).length },
          some ⟨1, [1]⟩⟩ 2 [some .reduceSize] (([1] : List Nat).length + 2) = some (false, [])
    ∧ mb_write (mkBus (40 + 8192) true)
        ⟨{ (⟨0, 0, 0, 0, 0, 0⟩ : DataHead) with len := ([1] : List Nat).length },
          some ⟨1, [1]⟩⟩ 2 [some .reduceSize] (([1] : List Nat).length + 2) = some (false, [])
    ∧ mb_write (mkBus (40 + 8192) false)
        ⟨{ (⟨0, 0, 0, 0, 0, 0⟩ : DataHead) with len := ([1] : List Nat).length },
          some ⟨1, [1]⟩⟩ 2 [some .fatal] (([1] : List Nat).length + 2) = some (false, []) := by
  refine ⟨C7_reduce_size_downshift.1 (List.replicate 8193 0) 0 1 2 ⟨0, 0, 0, 0, 0, 0⟩ (by rw [List.length_replicate]),
    C7_reduce_size_downshift.2.1 (List.replicate 8193 0) 0 1 2 ⟨0, 0, 0, 0, 0, 0⟩ (by rw [List.length_replicate]),
    C7_reduce_size_downshift.2.2.1 [1] 1 2 ⟨0, 0, 0, 0, 0, 0⟩ (by decide) (by decide),
    C7_reduce_size_downshift.2.2.2.1 [1] 1 2 ⟨0, 0, 0, 0, 0, 0⟩ (by decide) (by decide),
    C7_reduce_size_downshift.2.2.2.2 [1] 1 2 ⟨0, 0, 0, 0, 0, 0⟩ (by decide) (by decide)⟩

end swoole

namespace swoole

lemma sock_readv_qlen (s : RSock) (k : Nat) :
    ((sock_readv s k).2).q.length ≤ s.q.length
    ∧ s.q.length - ((sock_readv s k).2).q.length ≤ 1 := by
  rcases s with ⟨q, rverr, closed⟩
  unfold sock_readv
  cases rverr with
  | some c => simp
  | none =>
    cases q with
    | nil =>
      by_cases hc : closed <;> simp [hc]
    | cons it rest =>
      cases it with
      | item h p =>
        by_cases hk : p.length ≤ k <;> simp [hk]
      | stray bs => simp

lemma sock_read_full_qlen (bus : MessageBus) (s : RSock) :
    ((sock_read_full bus s).2.2).q.length ≤ s.q.length
    ∧ s.q.length - ((sock_read_full bus s).2.2).q.length ≤ 1 := by
  rcases s with ⟨q, rverr, closed⟩
  unfold sock_read_full
  cases rverr with
  | some c => simp
  | none =>
    cases q with
    | nil =>
      by_cases hc : closed <;> simp [hc]
    | cons it rest =>
      cases it with
      | item h p =>
        by_cases ht : p.length ≤ min bus.buffer_info.len p.length <;> simp [ht]
      | stray bs => simp

lemma sock_discard_head_qlen (s : RSock) :
    ((sock_discard_head s).q.length ≤ s.q.length)
    ∧ s.q.length - (sock_discard_head s).q.length ≤ 1 := by
  rcases s with ⟨q, rverr, closed⟩
  unfold sock_discard_head
  cases rverr with
  | some c => simp
  | none =>
    cases q with
    | nil => simp
    | cons it rest =>
      cases it with
      | item h p =>
        by_cases hp : p.isEmpty <;> simp [hp]
      | stray bs =>
        by_cases hb : bs.length ≤ sizeofDataHead <;> simp [hb]

lemma sock_read_dgram_qlen (s : RSock) (cap : Nat) :
    ((sock_read_dgram s cap).2).q.length ≤ s.q.length
    ∧ s.q.length - ((sock_read_dgram s cap).2).q.length ≤ 1 := by
  rcases s with ⟨q, rverr, closed⟩
  unfold sock_read_dgram
  cases rverr with
  | some c => simp
  | none =>
    cases q with
    | nil =>
      by_cases hc : closed <;> simp [hc]
    | cons it rest =>
      cases it with
      | item h p => simp
      | stray bs => simp

end swoole


namespace swoole

lemma prepare_packet_continue (bus : MessageBus) (c c2 : Nat) (bus2 : MessageBus)
    (h : bus.prepare_packet c = (.SW_CONTINUE, c2, bus2)) :
    c2 = c + 1 ∧ c + 1 < SW_WORKER_MAX_RECV_CHUNK_COUNT := by
  simp only [MessageBus.prepare_packet] at h
  split at h
  · split at h
    · exact absurd (congrArg Prod.fst h) (by simp)
    · rename_i h2
      have hcc := congrArg (fun t => t.2.1) h
      simp only at hcc
      exact ⟨hcc.symm, by omega⟩
  · exact absurd (congrArg Prod.fst h) (by simp)

lemma sock_readv_qlen_eq (s : RSock) (k : Nat) (o : ReadvOut) (s1 : RSock)
    (h : sock_readv s k = (o, s1)) :
    s1.q.length ≤ s.q.length ∧ s.q.length - s1.q.length ≤ 1 := by
  have hq := sock_readv_qlen s k
  rw [h] at hq
  exact hq

lemma sock_read_dgram_qlen_eq (s : RSock) (cap : Nat) (o : DgramOut) (s1 : RSock)
    (h : sock_read_dgram s cap = (o, s1)) :
    s1.q.length ≤ s.q.length ∧ s.q.length - s1.q.length ≤ 1 := by
  have hq := sock_read_dgram_qlen s cap
  rw [h] at hq
  exact hq

end swoole

namespace swoole

lemma mb_read_loop_qlen :
    ∀ (fuel : Nat) (bus : MessageBus) (s : RSock) (c : Nat) (logs : List LogEvent)
      (r : Int) (bus2 : MessageBus) (s2 : RSock) (lg : List LogEvent),
      c < SW_WORKER_MAX_RECV_CHUNK_COUNT →
      mb_read_loop bus s c logs fuel = some (r, bus2, s2, lg) →
      s2.q.length ≤ s.q.length
      ∧ s.q.length - s2.q.length ≤ SW_WORKER_MAX_RECV_CHUNK_COUNT - c := by
  intro fuel
  induction fuel with
  | zero =>
    intro bus s c logs r bus2 s2 lg hc h
    simp [mb_read_loop] at h
  | succ fuel ih =>
    intro bus s c logs r bus2 s2 lg hc h
    simp only [mb_read_loop] at h
    split at h
    · simp only [Option.some.injEq, Prod.mk.injEq] at h
      obtain ⟨-, -, hs2, -⟩ := h
      subst hs2
      exact ⟨le_refl _, by omega⟩
    · simp only [Option.some.injEq, Prod.mk.injEq] at h
      obtain ⟨-, -, hs2, -⟩ := h
      subst hs2
      exact ⟨le_refl _, by omega⟩
    · rename_i hh hpk
      split at h
      · simp only [Option.some.injEq, Prod.mk.injEq] at h
        obtain ⟨-, -, hs2, -⟩ := h
        have hq := sock_read_full_qlen { bus with buffer_info := hh } s
        rw [hs2] at hq
        exact ⟨hq.1, by omega⟩
      · split at h
        · simp only [Option.some.injEq, Prod.mk.injEq] at h
          obtain ⟨-, -, hs2, -⟩ := h
          subst hs2
          have hq := sock_discard_head_qlen s
          exact ⟨hq.1, by omega⟩
        · rename_i pb bus2l hgp
          split at h
          · rename_i s2l hrv
            have hq := sock_readv_qlen_eq _ _ _ _ hrv
            simp only [Option.some.injEq, Prod.mk.injEq] at h
            obtain ⟨-, -, hs2, -⟩ := h
            subst hs2
            exact ⟨hq.1, by omega⟩
          · rename_i s2l hrv
            have hq := sock_readv_qlen_eq _ _ _ _ hrv
            simp only [Option.some.injEq, Prod.mk.injEq] at h
            obtain ⟨-, -, hs2, -⟩ := h
            subst hs2
            exact ⟨hq.1, by omega⟩
          · rename_i s2l hrv
            have hq := sock_readv_qlen_eq _ _ _ _ hrv
            split at h
            · simp only [Option.some.injEq, Prod.mk.injEq] at h
              obtain ⟨-, -, hs2, -⟩ := h
              subst hs2
              exact ⟨hq.1, by omega⟩
            · rename_i c3 bus3 hpp
              obtain ⟨hc3, hlt⟩ := prepare_packet_continue _ _ _ _ hpp
              subst hc3
              have hrec := ih _ _ _ _ _ _ _ _ hlt h
              exact ⟨le_trans hrec.1 hq.1, by omega⟩
            · simp only [Option.some.injEq, Prod.mk.injEq] at h
              obtain ⟨-, -, hs2, -⟩ := h
              subst hs2
              exact ⟨hq.1, by omega⟩
          · rename_i chunk s2l hrv
            have hq := sock_readv_qlen_eq _ _ _ _ hrv
            split at h
            · simp only [Option.some.injEq, Prod.mk.injEq] at h
              obtain ⟨-, -, hs2, -⟩ := h
              subst hs2
              exact ⟨hq.1, by omega⟩
            · rename_i c3 bus3 hpp
              obtain ⟨hc3, hlt⟩ := prepare_packet_continue _ _ _ _ hpp
              subst hc3
              have hrec := ih _ _ _ _ _ _ _ _ hlt h
              exact ⟨le_trans hrec.1 hq.1, by omega⟩
            · simp only [Option.some.injEq, Prod.mk.injEq] at h
              obtain ⟨-, -, hs2, -⟩ := h
              subst hs2
              exact ⟨hq.1, by omega⟩

end swoole

namespace swoole

lemma mb_read_with_buffer_loop_qlen :
    ∀ (fuel : Nat) (bus : MessageBus) (s : RSock) (c : Nat) (logs : List LogEvent)
      (r : Int) (bus2 : MessageBus) (s2 : RSock) (lg : List LogEvent),
      c < SW_WORKER_MAX_RECV_CHUNK_COUNT →
      mb_read_with_buffer_loop bus s c logs fuel = some (r, bus2, s2, lg) →
      s2.q.length ≤ s.q.length
      ∧ s.q.length - s2.q.length ≤ SW_WORKER_MAX_RECV_CHUNK_COUNT - c := by
  intro fuel
  induction fuel with
  | zero =>
    intro bus s c logs r bus2 s2 lg hc h
    simp [mb_read_with_buffer_loop] at h
  | succ fuel ih =>
    intro bus s c logs r bus2 s2 lg hc h
    simp only [mb_read_with_buffer_loop] at h
    split at h
    · rename_i s2l hrd
      have hq := sock_read_dgram_qlen_eq _ _ _ _ hrd
      simp only [Option.some.injEq, Prod.mk.injEq] at h
      obtain ⟨-, -, hs2, -⟩ := h
      subst hs2
      exact ⟨hq.1, by omega⟩
    · rename_i s2l hrd
      have hq := sock_read_dgram_qlen_eq _ _ _ _ hrd
      simp only [Option.some.injEq, Prod.mk.injEq] at h
      obtain ⟨-, -, hs2, -⟩ := h
      subst hs2
      exact ⟨hq.1, by omega⟩
    · rename_i s2l hrd
      have hq := sock_read_dgram_qlen_eq _ _ _ _ hrd
      simp only [Option.some.injEq, Prod.mk.injEq] at h
      obtain ⟨-, -, hs2, -⟩ := h
      subst hs2
      exact ⟨hq.1, by omega⟩
    · rename_i hh p s2l hrd
      have hq := sock_read_dgram_qlen_eq _ _ _ _ hrd
      split at h
      · simp only [Option.some.injEq, Prod.mk.injEq] at h
        obtain ⟨-, -, hs2, -⟩ := h
        subst hs2
        exact ⟨hq.1, by omega⟩
      · split at h
        · simp only [Option.some.injEq, Prod.mk.injEq] at h
          obtain ⟨-, -, hs2, -⟩ := h
          subst hs2
          exact ⟨hq.1, by omega⟩
        · split at h
          · simp only [Option.some.injEq, Prod.mk.injEq] at h
            obtain ⟨-, -, hs2, -⟩ := h
            subst hs2
            exact ⟨hq.1, by omega⟩
          · rename_i c3 bus4 hpp
            obtain ⟨hc3, hlt⟩ := prepare_packet_continue _ _ _ _ hpp
            have hlt2 : c3 < SW_WORKER_MAX_RECV_CHUNK_COUNT := by omega
            have hrec := ih _ _ _ _ _ _ _ _ hlt2 h
            exact ⟨le_trans hrec.1 hq.1, by omega⟩
          · simp only [Option.some.injEq, Prod.mk.injEq] at h
            obtain ⟨-, -, hs2, -⟩ := h
            subst hs2
            exact ⟨hq.1, by omega⟩

end swoole

namespace swoole

lemma readConsumed_le (bus : MessageBus) (s : RSock) :
    readConsumed bus s ≤ SW_WORKER_MAX_RECV_CHUNK_COUNT := by
  unfold readConsumed mb_read
  cases hm : mb_read_loop bus s 0 [] s.measureFuel with
  | none => exact Nat.zero_le _
  | some v =>
    obtain ⟨r, b2, s2, lg⟩ := v
    have hb := mb_read_loop_qlen s.measureFuel bus s 0 [] r b2 s2 lg (by decide) hm
    rw [Nat.sub_zero] at hb
    exact hb.2

lemma readBufConsumed_le (bus : MessageBus) (s : RSock) :
    readBufConsumed bus s ≤ SW_WORKER_MAX_RECV_CHUNK_COUNT := by
  unfold readBufConsumed mb_read_with_buffer
  cases hm : mb_read_with_buffer_loop bus s 0 [] s.measureFuel with
  | none => exact Nat.zero_le _
  | some v =>
    obtain ⟨r, b2, s2, lg⟩ := v
    have hb := mb_read_with_buffer_loop_qlen s.measureFuel bus s 0 [] r b2 s2 lg (by decide) hm
    rw [Nat.sub_zero] at hb
    exact hb.2

lemma c5_scenario (n : Nat) :
    ∃ bus2 : MessageBus,
      mb_read (mkBus 41 false) (c5sock n) = some (SW_OK, bus2, c5rest n, [])
      ∧ (c5rest n).q ≠ []
      ∧ (c5sock n).q.length - (c5rest n).q.length = SW_WORKER_MAX_RECV_CHUNK_COUNT := by
  have hlenP : (c5P n).length = c5len n := by simp [c5P]
  have hne : c5P n ≠ [] := by
    intro h0
    rw [h0] at hlenP
    simp only [List.length_nil, c5len, SW_WORKER_MAX_RECV_CHUNK_COUNT] at hlenP
    omega
  have hmeas := toItems_records_le_measure (wchunks (c5info n) 0 (c5P n) true)
  have hmeq : (c5sock n).measureFuel
      = (⟨toItems (wchunks (c5info n) 0 (c5P n) true), none, false⟩ : RSock).measureFuel := rfl
  obtain ⟨f, hfeq⟩ : ∃ f, (c5sock n).measureFuel = f + 1 :=
    ⟨(c5sock n).measureFuel - 1, by omega⟩
  have hff : (wchunks (c5info n) 0 (c5P n) true).length + 1 ≤ f + 1 := by
    rw [← hfeq, hmeq]
    exact hmeas
  have hkey := read_series_first 0 77 (c5len n) false (c5info n) rfl rfl f (c5P n)
    ⟨0, 0, 0, 0, 0, 0⟩ (.raw []) [] hne hlenP hff
  have hgt : ¬ (c5P n).length ≤ SW_WORKER_MAX_RECV_CHUNK_COUNT * (0 + 1) := by
    rw [hlenP]
    simp only [c5len, SW_WORKER_MAX_RECV_CHUNK_COUNT]
    omega
  rw [if_neg hgt] at hkey
  have hdrop : (c5P n).drop (SW_WORKER_MAX_RECV_CHUNK_COUNT * (0 + 1)) = List.replicate (n + 1) 0 := by
    simp only [c5P, List.drop_replicate]
    have harith : c5len n - SW_WORKER_MAX_RECV_CHUNK_COUNT * (0 + 1) = n + 1 := by
      simp only [c5len, SW_WORKER_MAX_RECV_CHUNK_COUNT]
      omega
    rw [harith]
  rw [hdrop] at hkey
  have hread : mb_read (mkBus 41 false) (c5sock n)
      = mb_read_loop (mkBus 41 false) (c5sock n) 0 [] (f + 1) := by
    unfold mb_read
    rw [hfeq]
  have hq2 : (c5rest n).q ≠ [] := by
    have hw := wchunks_ne_nil (c5info n) 0 (List.replicate (n + 1) 0) false
    simp only [c5rest, toItems, ne_eq, List.map_eq_nil_iff]
    exact hw
  have hq3 : (c5sock n).q.length - (c5rest n).q.length = SW_WORKER_MAX_RECV_CHUNK_COUNT := by
    have hrepne : (List.replicate (n + 1) (0 : Nat)) ≠ [] := by
      intro h0
      have := congrArg List.length h0
      simp at this
    have hw1 := wchunks_length (c5info n) 0 (c5P n) true hne
    have hw2 := wchunks_length (c5info n) 0 (List.replicate (n + 1) 0) false hrepne
    simp only [c5sock, c5rest, toItems, List.length_map]
    rw [hw1, hw2, hlenP]
    simp only [List.length_replicate, Nat.add_zero, Nat.div_one]
    simp only [c5len, SW_WORKER_MAX_RECV_CHUNK_COUNT]
    omega
  exact ⟨_, hread.trans hkey, hq2, hq3⟩

end swoole

namespace swoole

/-- Claim C5: one invocation of `MessageBus::read`, and likewise of
`read_with_buffer`, consumes at most `SW_WORKER_MAX_RECV_CHUNK_COUNT`
records from the socket before returning; and when more chunks than the
limit are pending (scenario `c5sock n`, a chunk series of
`SW_WORKER_MAX_RECV_CHUNK_COUNT + 1 + n` one-byte chunks), the invocation
consumes exactly the limit, returns `SW_OK` so the caller re-arms the
event loop, and leaves the remaining chunks unconsumed on the socket. -/
theorem C5_recv_chunk_limit :
    (∀ (bus : MessageBus) (s : RSock), readConsumed bus s ≤ SW_WORKER_MAX_RECV_CHUNK_COUNT)
    ∧ (∀ (bus : MessageBus) (s : RSock), readBufConsumed bus s ≤ SW_WORKER_MAX_RECV_CHUNK_COUNT)
    ∧ (∀ n : Nat, ∃ bus2 : MessageBus,
        mb_read (mkBus 41 false) (c5sock n) = some (SW_OK, bus2, c5rest n, [])
        ∧ (c5rest n).q ≠ []
        ∧ (c5sock n).q.length - (c5rest n).q.length = SW_WORKER_MAX_RECV_CHUNK_COUNT) :=
  ⟨readConsumed_le, readBufConsumed_le, c5_scenario⟩

end swoole
